import Mathlib

/-!
Verification development for the fhir-tooling CSV importer
(`importer/main.py`).  The Python source is shallowly embedded below:
pure row-shaping functions become Lean functions over structured
documents, remote HTTP state is passed in explicitly as a function
parameter, and Python exceptions (ValueError, TypeError, KeyError,
IndexError, NameError) become `Except String` errors.  The JSON
template files under `json_payloads/` are not part of the sources and
are modelled from the specification where a claim depends on them;
every such definition is marked `Modelled from the spec:` in its
doc comment.
-/

/-! ## Python string primitives

The importer manipulates payloads with `str.replace`, `str.strip`,
`str.split`, the `in` substring test and `int()`.  These are embedded
structurally over `List Char` so that every definition reduces in the
kernel.
-/

/-- `leadsWith pat l` is true when `pat` is a leading segment of `l`
(the check `str.startswith` performs at one scan position). -/
def leadsWith : List Char → List Char → Bool
  | [], _ => true
  | _ :: _, [] => false
  | p :: ps, c :: cs => p == c && leadsWith ps cs

/-- `hasSub pat l` models the Python substring test `pat in l`. -/
def hasSub (pat : List Char) : List Char → Bool
  | [] => leadsWith pat []
  | c :: rest => leadsWith pat (c :: rest) || hasSub pat rest

/-- String-level wrapper for `hasSub`: Python `pat in s`. -/
def containsSub (pat s : String) : Bool := hasSub pat.data s.data

/-- Fueled left-to-right non-overlapping replacement (Python
`str.replace` semantics).  The fuel is an upper bound on the scan
length; callers pass the length of the scanned list, which always
suffices because each step consumes at least one character. -/
def replaceListF (p0 : Char) (ps rep : List Char) : Nat → List Char → List Char
  | 0, l => l
  | _ + 1, [] => []
  | fuel + 1, c :: rest =>
    if leadsWith (p0 :: ps) (c :: rest) then
      rep ++ replaceListF p0 ps rep fuel (rest.drop ps.length)
    else
      c :: replaceListF p0 ps rep fuel rest

/-- Python `s.replace(pat, rep)`.  A degenerate empty pattern is left
alone (the importer only ever replaces `$`-prefixed tokens). -/
def strReplace (s pat rep : String) : String :=
  match pat.data with
  | [] => s
  | p0 :: ps => ⟨replaceListF p0 ps rep.data s.data.length s.data⟩

/-- The whitespace characters Python `str.strip()` removes (ASCII
portion, which is all the importer ever feeds it). -/
def isWsChar (c : Char) : Bool :=
  c == ' ' || c == '\t' || c == '\n' || c == '\r' || c == '\x0b' || c == '\x0c'

/-- Python `s.strip()`. -/
def pyStrip (s : String) : String :=
  ⟨((s.data.dropWhile isWsChar).reverse.dropWhile isWsChar).reverse⟩

/-- Auxiliary scanner for `splitBy`. -/
def splitByAux (sep : Char) : List Char → List Char → List String
  | [], acc => [⟨acc.reverse⟩]
  | c :: rest, acc =>
    if c == sep then ⟨acc.reverse⟩ :: splitByAux sep rest []
    else splitByAux sep rest (c :: acc)

/-- Python `s.split(sep)` for a one-character separator (the importer
only splits on `":"` and `"|"`). -/
def splitBy (sep : Char) (s : String) : List String := splitByAux sep s.data []

/-- One decimal digit, or `none`. -/
def digitVal (c : Char) : Option Nat :=
  if 48 ≤ c.toNat ∧ c.toNat ≤ 57 then some (c.toNat - 48) else none

/-- Accumulator for `natOfDigits` (most significant digit first). -/
def digitsFoldAux : List Char → Nat → Nat
  | [], acc => acc
  | c :: rest, acc => digitsFoldAux rest (acc * 10 + (digitVal c).getD 0)

/-- Digits-only decimal parse. -/
def natOfDigits (l : List Char) : Option Nat :=
  if l.all fun c => (digitVal c).isSome then some (digitsFoldAux l 0) else none

/-- Python `int(s)` restricted to optionally-signed decimal literals
(the importer parses administrative-level codes with it).  Leading
whitespace, `+` signs and underscores are not modelled: the codes in
question are plain numerals. -/
def pyInt (s : String) : Option Int :=
  match s.data with
  | [] => none
  | '-' :: rest =>
    match rest, natOfDigits rest with
    | _ :: _, some n => some (-(n : Int))
    | _, _ => none
  | l =>
    match natOfDigits l with
    | some n => some ((n : Int))
    | none => none

/-! ## uuid5

`uuid.uuid5(uuid.NAMESPACE_DNS, name)` from the Python standard
library: the SHA-1 digest of the DNS namespace bytes followed by the
UTF-8 encoding of `name`, with the RFC 4122 version/variant bits set
and the result rendered as lowercase dashed hex.  Embedded in full so
that the derived identities are the real ones.
-/

/-- 2 to the 32nd, the word modulus of SHA-1. -/
def pow32 : Nat := 4294967296

/-- Reduce to a 32-bit word. -/
def mask32 (x : Nat) : Nat := x % pow32

/-- 32-bit left rotation (argument assumed below `pow32`). -/
def rotl (n x : Nat) : Nat := mask32 ((x <<< n) ||| (x >>> (32 - n)))

/-- The SHA-1 round function for round `t`. -/
def sha1F (t b c d : Nat) : Nat :=
  if t < 20 then (b &&& c) ||| ((b ^^^ 4294967295) &&& d)
  else if t < 40 then b ^^^ c ^^^ d
  else if t < 60 then (b &&& c) ||| (b &&& d) ||| (c &&& d)
  else b ^^^ c ^^^ d

/-- The SHA-1 round constant for round `t`. -/
def sha1K (t : Nat) : Nat :=
  if t < 20 then 1518500249
  else if t < 40 then 1859775393
  else if t < 60 then 2400959708
  else 3395469782

/-- One SHA-1 round: state times (round index, schedule word). -/
def sha1Round (st : Nat × Nat × Nat × Nat × Nat) (tw : Nat × Nat) :
    Nat × Nat × Nat × Nat × Nat :=
  let (a, b, c, d, e) := st
  let (t, w) := tw
  let temp := mask32 (rotl 5 a + sha1F t b c d + e + sha1K t + w)
  (temp, a, rotl 30 b, c, d)

/-- Extend the message schedule; `acc` holds the words produced so far
in reverse order. -/
def extendWAux : Nat → List Nat → List Nat
  | 0, acc => acc
  | k + 1, acc =>
    extendWAux k
      (rotl 1 (acc.getD 2 0 ^^^ acc.getD 7 0 ^^^ acc.getD 13 0 ^^^ acc.getD 15 0) :: acc)

/-- The 80-word schedule of one 16-word block. -/
def scheduleW (ws : List Nat) : List Nat := (extendWAux 64 ws.reverse).reverse

/-- Compress one 16-word block into the running hash state. -/
def processBlock (h : Nat × Nat × Nat × Nat × Nat) (ws : List Nat) :
    Nat × Nat × Nat × Nat × Nat :=
  let (h0, h1, h2, h3, h4) := h
  let (a, b, c, d, e) := (scheduleW ws).enum.foldl sha1Round (h0, h1, h2, h3, h4)
  (mask32 (h0 + a), mask32 (h1 + b), mask32 (h2 + c), mask32 (h3 + d), mask32 (h4 + e))

/-- A 64-bit big-endian byte rendering. -/
def u64be (n : Nat) : List Nat :=
  [(n >>> 56) &&& 255, (n >>> 48) &&& 255, (n >>> 40) &&& 255, (n >>> 32) &&& 255,
   (n >>> 24) &&& 255, (n >>> 16) &&& 255, (n >>> 8) &&& 255, n &&& 255]

/-- SHA-1 message padding: `0x80`, zeros, 64-bit bit length. -/
def padMessage (msg : List Nat) : List Nat :=
  let padZeros := (64 - ((msg.length + 9) % 64)) % 64
  msg ++ 128 :: (List.replicate padZeros 0 ++ u64be (msg.length * 8))

/-- Big-endian 4-byte grouping into 32-bit words. -/
def toWords : List Nat → List Nat
  | a :: b :: c :: d :: rest => (((a * 256 + b) * 256 + c) * 256 + d) :: toWords rest
  | _ => []

/-- Fueled grouping into 16-word blocks. -/
def chunk16F : Nat → List Nat → List (List Nat)
  | 0, _ => []
  | _ + 1, [] => []
  | fuel + 1, ws => ws.take 16 :: chunk16F fuel (ws.drop 16)

/-- A 32-bit word as 4 big-endian bytes. -/
def word4be (w : Nat) : List Nat :=
  [(w >>> 24) &&& 255, (w >>> 16) &&& 255, (w >>> 8) &&& 255, w &&& 255]

/-- The SHA-1 digest (20 bytes) of a byte list. -/
def sha1 (msg : List Nat) : List Nat :=
  let ws := toWords (padMessage msg)
  let (h0, h1, h2, h3, h4) :=
    (chunk16F ws.length ws).foldl processBlock
      (1732584193, 4023233417, 2562383102, 271733878, 3285377520)
  word4be h0 ++ word4be h1 ++ word4be h2 ++ word4be h3 ++ word4be h4

/-- UTF-8 bytes of one character. -/
def charUtf8 (c : Char) : List Nat :=
  let n := c.toNat
  if n < 128 then [n]
  else if n < 2048 then [192 + n / 64, 128 + n % 64]
  else if n < 65536 then [224 + n / 4096, 128 + (n / 64) % 64, 128 + n % 64]
  else [240 + n / 262144, 128 + (n / 4096) % 64, 128 + (n / 64) % 64, 128 + n % 64]

/-- UTF-8 bytes of a string (Python `name.encode("utf-8")`). -/
def utf8Bytes (s : String) : List Nat :=
  s.data.foldr (fun c acc => charUtf8 c ++ acc) []

/-- Lowercase hex digit. -/
def hexChar (n : Nat) : Char :=
  if n < 10 then Char.ofNat (48 + n) else Char.ofNat (87 + n)

/-- Two lowercase hex digits of a byte. -/
def byteHexChars (b : Nat) : List Char := [hexChar (b / 16 % 16), hexChar (b % 16)]

/-- Lowercase hex rendering of a byte list. -/
def bytesHexChars : List Nat → List Char
  | [] => []
  | b :: rest => byteHexChars b ++ bytesHexChars rest

/-- Dashed 8-4-4-4-12 rendering of 16 bytes. -/
def uuidFormat (bs : List Nat) : String :=
  ⟨bytesHexChars (bs.take 4) ++
    '-' :: (bytesHexChars ((bs.drop 4).take 2) ++
      '-' :: (bytesHexChars ((bs.drop 6).take 2) ++
        '-' :: (bytesHexChars ((bs.drop 8).take 2) ++
          '-' :: bytesHexChars (bs.drop 10))))⟩

/-- The 16 bytes of `uuid.NAMESPACE_DNS`. -/
def namespaceDNSBytes : List Nat :=
  [107, 167, 184, 16, 157, 173, 17, 209, 128, 180, 0, 192, 79, 212, 48, 200]

/-- `str(uuid.uuid5(uuid.NAMESPACE_DNS, name))`. -/
def uuid5 (name : String) : String :=
  let digest := sha1 (namespaceDNSBytes ++ utf8Bytes name)
  let raw := digest.take 16
  let b6 := (raw.getD 6 0 &&& 15) ||| 80
  let b8 := (raw.getD 8 0 &&& 63) ||| 128
  uuidFormat (raw.take 6 ++ b6 :: raw.getD 7 0 :: b8 :: raw.drop 9)

/-! ## Document model

The payload JSON trees the shapers manipulate, modelled structurally.
Token substitution (`str.replace` on the serialized payload in Python)
is embedded as `strReplace` applied to every string leaf, which is
what a textual replacement does to a parsed document.
-/

/-- One FHIR coding: `system` / `code` / `display`. -/
structure Coding where
  system : String
  code : String
  display : String
deriving DecidableEq

/-- One entry of a `type` array: an object with a `coding` list. -/
structure TypeEntry where
  coding : List Coding
deriving DecidableEq

/-- A FHIR reference object: `reference` / `display`. -/
structure Reference where
  reference : String
  display : String
deriving DecidableEq

/-- A Location `position` object. -/
structure GeoPoint where
  longitude : String
  latitude : String
deriving DecidableEq

/-- The parts of a Location resource document that
`location_extras` reads or edits. -/
structure LocDoc where
  partOf : Option Reference
  type : List TypeEntry
  physicalType : Option TypeEntry
  position : Option GeoPoint
deriving DecidableEq

/-- Token substitution in a coding. -/
def Coding.subst (tok v : String) (c : Coding) : Coding :=
  ⟨strReplace c.system tok v, strReplace c.code tok v, strReplace c.display tok v⟩

/-- Token substitution in a `type` entry. -/
def TypeEntry.subst (tok v : String) (e : TypeEntry) : TypeEntry :=
  ⟨e.coding.map (Coding.subst tok v)⟩

/-- Token substitution in a reference object. -/
def Reference.subst (tok v : String) (r : Reference) : Reference :=
  ⟨strReplace r.reference tok v, strReplace r.display tok v⟩

/-- Token substitution in a position object. -/
def GeoPoint.subst (tok v : String) (g : GeoPoint) : GeoPoint :=
  ⟨strReplace g.longitude tok v, strReplace g.latitude tok v⟩

/-- Token substitution over every string leaf of a Location document,
the structural effect of `payload_string.replace(tok, v)`. -/
def LocDoc.subst (tok v : String) (d : LocDoc) : LocDoc :=
  ⟨d.partOf.map (Reference.subst tok v), d.type.map (TypeEntry.subst tok v),
   d.physicalType.map (TypeEntry.subst tok v), d.position.map (GeoPoint.subst tok v)⟩

/-- Modelled from the spec: `json_payloads/locations_payload.json` is
not under the sources.  Per the spec the Location template carries a
parent-reference subtree, a `type` array with a location-type entry
and an administrative-level entry (matched by substring of their
coding systems), a physical-type subtree and a geo-position subtree,
all populated with `$`-tokens. -/
def location_payload_template : LocDoc :=
  ⟨some ⟨"Location/$parentID", "$parentName"⟩,
   [⟨[⟨"http://terminology.hl7.org/CodeSystem/location-type", "$t_code", "$t_display"⟩]⟩,
    ⟨[⟨"https://smartregister.org/CodeSystem/administrative-level",
       "$adminLevelCode", "$adminLevelCode"⟩]⟩],
   some ⟨[⟨"http://terminology.hl7.org/CodeSystem/location-physical-type",
           "$pt_code", "$pt_display"⟩]⟩,
   some ⟨"$longitude", "$latitude"⟩⟩

/-- The parsed body of a `GET Location/<id>` response, as far as
`check_parent_admin_level` reads it: the optional `type` array. -/
structure FetchedLocation where
  type : Option (List TypeEntry)
deriving DecidableEq

/-! ## identify_coding_object_index and check_parent_admin_level -/

/-- Index scanner for `identify_coding_object_index`: walks the array
with a running index, reading `value["coding"][0]["system"]` of every
entry it passes (an entry with an empty coding list is an uncaught
IndexError, as in the source). -/
def identifyAux (current_system : String) : List TypeEntry → Nat → Except String (Option Nat)
  | [], _ => .ok none
  | e :: rest, idx =>
    match e.coding with
    | [] => .error "IndexError: coding list is empty"
    | c :: _ =>
      if containsSub current_system c.system then .ok (some idx)
      else identifyAux current_system rest (idx + 1)

/-- `identify_coding_object_index(array, current_system)`: the index
of the first entry whose first coding system contains
`current_system`, and the implicit `None` when no entry matches. -/
def identify_coding_object_index (array : List TypeEntry) (current_system : String) :
    Except String (Option Nat) :=
  identifyAux current_system array 0

/-- `check_parent_admin_level(locationParentId)`.  The remote `GET` is
the explicit `fetch` parameter returning the parsed response body.
When the body has a `type` array but no administrative-level coding,
`identify_coding_object_index` yields `None` and the source comparison
`if index >= 0` raises `TypeError` in Python 3; that crash is the
first error branch below.  A non-numeric code is an uncaught
`int()` ValueError.  (The source's `if current_system` test on the
constant string is always true and is not represented.) -/
def incrementedCode : Option Int → Except String (Option String)
  | none => .error "ValueError: invalid literal for int"
  | some code => .ok (some (toString (code + 1)))

def codeHead : List Coding → Except String (Option String)
  | [] => .error "IndexError: coding list is empty"
  | c :: _ => incrementedCode (pyInt c.code)

def codeAtIndex (response_type : List TypeEntry) (index : Nat) :
    Except String (Option String) :=
  codeHead (response_type.getD index ⟨[]⟩).coding

def adminCodeOf (response_type : List TypeEntry) :
    Except String (Option Nat) → Except String (Option String)
  | .error e => .error e
  | .ok none => .error "TypeError: NoneType and int comparison"
  | .ok (some index) => codeAtIndex response_type index

def parentLevelOf : Option (List TypeEntry) → Except String (Option String)
  | some response_type =>
    adminCodeOf response_type
      (identify_coding_object_index response_type "administrative-level")
  | none => .ok none

def check_parent_admin_level (fetch : String → FetchedLocation)
    (locationParentId : String) : Except String (Option String) :=
  parentLevelOf (fetch locationParentId).type

/-! ## location_extras -/

/-- Python truthiness of `check_parent_admin_level`'s result (`None`
and the empty string are falsy). -/
def truthyOpt : Option String → Bool
  | none => false
  | some s => !(s == "")

/-- The parent-reference branch of `location_extras`: substitute
`$parentName` / `$parentID` when a real parent name is present,
otherwise `del obj["resource"]["partOf"]` (a KeyError when the
subtree is already gone). -/
def prunePartOf (d : LocDoc) : Option Reference → Except String LocDoc
  | some _ => .ok { d with partOf := none }
  | none => .error "KeyError: partOf"

def partOfBranch (locationParentName locationParentId : String) (d : LocDoc) :
    Except String LocDoc :=
  if locationParentName ≠ "" ∧ locationParentName ≠ "parentName" then
    .ok ((d.subst "$parentName" locationParentName).subst "$parentID" locationParentId)
  else prunePartOf d d.partOf

/-- The type/type-code branch of `location_extras`: `$t_display` and
`$t_code` are substituted independently; a missing type code deletes
the location-type entry, guarded by the source's `if index >= 0`
(a `TypeError` when `identify_coding_object_index` returned `None`). -/
def eraseTypeEntry (d : LocDoc) (msg : String) :
    Except String (Option Nat) → Except String LocDoc
  | .error e => .error e
  | .ok none => .error msg
  | .ok (some index) => .ok { d with type := d.type.eraseIdx index }

def typeCodeStep (locationTypeCode : String) (d : LocDoc) : Except String LocDoc :=
  if pyStrip locationTypeCode ≠ "" ∧ locationTypeCode ≠ "typeCode" then
    .ok (d.subst "$t_code" locationTypeCode)
  else
    eraseTypeEntry d "TypeError: NoneType and int comparison"
      (identify_coding_object_index d.type "location-type")

def typeBranch (locationType locationTypeCode : String) (d : LocDoc) :
    Except String LocDoc :=
  typeCodeStep locationTypeCode
    (if pyStrip locationType ≠ "" ∧ locationType ≠ "type" then
      d.subst "$t_display" locationType else d)

/-- `del obj["resource"]["type"][index]` for the administrative-level
entry, with no `>= 0` guard in the source: a `None` index is a
`TypeError` (`del` with a `NoneType` subscript). -/
def deleteAdminEntry (d : LocDoc) : Except String LocDoc :=
  eraseTypeEntry d "TypeError: list indices must be integers"
    (identify_coding_object_index d.type "administrative-level")

/-- The administrative-level branch of `location_extras`.  A provided
level is substituted; otherwise, when the placeholder value occurs as
a field of the row (which is how an explicitly-present-but-empty cell
manifests), the level is inherited from the parent via
`check_parent_admin_level`, and a falsy lookup result prunes the
administrative-level entry.  The inherit path is split out as
`adminInherit`. -/
def adminInheritResult (d : LocDoc) :
    Except String (Option String) → Except String LocDoc
  | .error e => .error e
  | .ok admin_level =>
    if truthyOpt admin_level then
      .ok (d.subst "$adminLevelCode" (admin_level.getD ""))
    else deleteAdminEntry d

def adminInherit (fetch : String → FetchedLocation) (locationParentId : String)
    (d : LocDoc) : Except String LocDoc :=
  adminInheritResult d (check_parent_admin_level fetch locationParentId)

def adminBranch (fetch : String → FetchedLocation) (resource : List String)
    (locationAdminLevel locationParentId : String) (d : LocDoc) :
    Except String LocDoc :=
  if pyStrip locationAdminLevel ≠ "" ∧ locationAdminLevel ≠ "adminLevel" then
    .ok (d.subst "$adminLevelCode" locationAdminLevel)
  else if resource.contains locationAdminLevel then
    adminInherit fetch locationParentId d
  else deleteAdminEntry d

/-- The physical-type branch of `location_extras`: like `typeBranch`,
but an absent code deletes the whole `physicalType` subtree. -/
def prunePhysical (d : LocDoc) : Option TypeEntry → Except String LocDoc
  | some _ => .ok { d with physicalType := none }
  | none => .error "KeyError: physicalType"

def physicalCodeStep (locationPhysicalTypeCode : String) (d : LocDoc) :
    Except String LocDoc :=
  if pyStrip locationPhysicalTypeCode ≠ "" ∧ locationPhysicalTypeCode ≠ "physicalTypeCode" then
    .ok (d.subst "$pt_code" locationPhysicalTypeCode)
  else prunePhysical d d.physicalType

def physicalBranch (locationPhysicalType locationPhysicalTypeCode : String)
    (d : LocDoc) : Except String LocDoc :=
  physicalCodeStep locationPhysicalTypeCode
    (if pyStrip locationPhysicalType ≠ "" ∧ locationPhysicalType ≠ "physicalType" then
      d.subst "$pt_display" locationPhysicalType else d)

/-- The geo-position branch of `location_extras`. -/
def prunePosition (d : LocDoc) : Option GeoPoint → Except String LocDoc
  | some _ => .ok { d with position := none }
  | none => .error "KeyError: position"

def positionBranch (longitude latitude : String) (d : LocDoc) :
    Except String LocDoc :=
  if longitude ≠ "" ∧ longitude ≠ "longitude" then
    .ok ((d.subst "$longitude" longitude).subst "$latitude" latitude)
  else prunePosition d d.position

/-- The nine trailing fields `location_extras` unpacks
(`locationParentName .. latitude`); a row shorter than the ten-slot
pattern raises ValueError and the source substitutes the placeholder
names (the source leaves `latitude` unassigned there; it is never
read on that path, so the model uses `""`). -/
def locationFields (resource : List String) :
    String × String × String × String × String × String × String × String × String :=
  let n := resource.length
  if 10 ≤ n then
    (resource.getD (n - 9) "", resource.getD (n - 8) "", resource.getD (n - 7) "",
     resource.getD (n - 6) "", resource.getD (n - 5) "", resource.getD (n - 4) "",
     resource.getD (n - 3) "", resource.getD (n - 2) "", resource.getD (n - 1) "")
  else
    ("parentName", "ParentId", "type", "typeCode", "adminLevel",
     "physicalType", "physicalTypeCode", "longitude", "")

/-- `location_extras(resource, payload_string)`, with the remote `GET`
of the parent Location passed in as `fetch`.  The source's
`except IndexError` arms are dead (``str.replace`` cannot raise
IndexError) and are not represented. -/
def location_extras (fetch : String → FetchedLocation) (resource : List String)
    (payload : LocDoc) : Except String LocDoc :=
  partOfBranch (locationFields resource).1 (locationFields resource).2.1 payload >>=
    fun d1 => typeBranch (locationFields resource).2.2.1
      (locationFields resource).2.2.2.1 d1 >>=
    fun d2 => adminBranch fetch resource (locationFields resource).2.2.2.2.1
      (locationFields resource).2.1 d2 >>=
    fun d3 => physicalBranch (locationFields resource).2.2.2.2.2.1
      (locationFields resource).2.2.2.2.2.2.1 d3 >>=
    fun d4 => positionBranch (locationFields resource).2.2.2.2.2.2.2.1
      (locationFields resource).2.2.2.2.2.2.2.2 d4

/-! ## care_team_extras and organization_extras -/

/-- One CareTeam participant: the org-derived entries carry the fixed
SNOMED role, the practitioner-derived ones have no `role` key. -/
structure Participant where
  role : Option TypeEntry
  member : Reference
deriving DecidableEq

/-- The parts of a CareTeam document `care_team_extras` edits. -/
structure CareDoc where
  participant : List Participant
  managingOrganization : List Reference
deriving DecidableEq

/-- The fixed "Healthcare related organization" coding attached to
every organization participant (verbatim from the source). -/
def healthcare_org_role : TypeEntry :=
  ⟨[⟨"http://snomed.info/sct", "394730007", "Healthcare related organization"⟩]⟩

/-- Modelled from the spec: `json_payloads/careteams_payload.json` is
not under the sources; per the spec absent lists leave an empty
participant set, so the template starts with no participants and no
managing organizations. -/
def care_team_payload_template : CareDoc := ⟨[], []⟩

/-- `x = element.split(":")` followed by `x[0]`, `x[1]`: the first two
colon-separated pieces, an IndexError when there is no colon. -/
def splitFirstTwo (s : String) : Except String (String × String) :=
  match splitBy ':' s with
  | a :: b :: _ => .ok (a, b)
  | _ => .error "IndexError: list index out of range"

/-- `care_team_extras(resource, payload_string, ftype)`.  The last two
fields are the pipe-delimited organization and participant lists; a
short row (ValueError) or a placeholder/empty cell leaves the
corresponding list empty.  Note the source's "users" pass reuses
`elements` (the organization pieces) when `elements2` is empty, and
appends to the `participant_list` already filled by the "orgs"
pass. -/
def care_team_extras (resource : List String) (payload : CareDoc) (ftype : String) :
    Except String CareDoc := do
  let n := resource.length
  let op := if 2 ≤ n then (resource.getD (n - 2) "", resource.getD (n - 1) "")
    else ("organizations", "participants")
  let organizations := op.1
  let participants := op.2
  let elements := if organizations ≠ "" ∧ organizations ≠ "organizations" then
    splitBy '|' organizations else []
  let elements2 := if participants ≠ "" ∧ participants ≠ "participants" then
    splitBy '|' participants else []
  let st ←
    if containsSub "orgs" ftype then do
      let pairs ← elements.mapM splitFirstTwo
      let orgs_list : List Reference :=
        pairs.map fun ab => ⟨"Organization/" ++ ab.1, ab.2⟩
      let participant_list : List Participant :=
        pairs.map fun ab => ⟨some healthcare_org_role, ⟨"Organization/" ++ ab.1, ab.2⟩⟩
      if participant_list.length > 0 then
        let payload2 : CareDoc := ⟨participant_list, orgs_list⟩
        pure (payload2, participant_list)
      else pure (payload, participant_list)
    else pure (payload, ([] : List Participant))
  let payload := st.1
  let participant_list := st.2
  if containsSub "users" ftype then do
    let els := if elements2.length > 0 then elements2 else elements
    let pairs ← els.mapM splitFirstTwo
    let participant_list := participant_list ++
      pairs.map fun ab => (⟨none, ⟨"Practitioner/" ++ ab.1, ab.2⟩⟩ : Participant)
    if participant_list.length > 0 then
      pure { payload with participant := participant_list }
    else pure payload
  else pure payload

/-- `organization_extras(resource, payload_string)`: the `$active`
token is replaced by the second field, or by `"true"` when unpacking
`_, orgActive, *_ = resource` raises ValueError (fewer than two
fields).  The textual payload is kept as a string here because the
source never re-parses it.  (The source's `except IndexError` arm
around `str.replace` is dead and not represented.) -/
def organization_extras (resource : List String) (payload_string : String) : String :=
  let orgActive := if 2 ≤ resource.length then resource.getD 1 "" else "true"
  strReplace payload_string "$active" orgActive

/-! ## get_resource and the build_payload row decision -/

/-- `get_valid_resource_type(resource_type)`: capitalize the first
character and drop the trailing `s` (`resource_type[0].upper() +
resource_type[1:-1]`). -/
def get_valid_resource_type (s : String) : String :=
  match s.data with
  | [] => ""
  | c :: rest => ⟨c.toUpper :: rest.dropLast⟩

/-- `get_resource(resource_id, resource_type)`: the backend is the
explicit `fetchVersion` parameter, mapping (valid resource type,
resource id) to `meta.versionId` of a 200 response and `none`
otherwise; a non-200 status yields the sentinel `"0"`. -/
def get_resource (fetchVersion : String → String → Option String)
    (resource_id resource_type : String) : String :=
  match fetchVersion (get_valid_resource_type resource_type) resource_id with
  | some v => v
  | none => "0"

/-- The per-row values `build_payload` fills into the template:
`$name`, `$status`, `$unique_uuid`, `$identifier_uuid`, `$version`. -/
structure BuildParams where
  name : String
  status : String
  unique_uuid : String
  identifier_uuid : String
  version : String
deriving DecidableEq

/-- The per-row create/update decision of `build_payload`.  Rows with
at least four fields unpack positionally; shorter nonempty rows take
the ValueError branch (method `create`, derived id); an empty row is
an uncaught IndexError.  `create` keeps a provided (stripped) id or
derives `uuid5(name)`, always with version `"1"` (the create/update
arm is split out as `methodDecision`).  `update` requires
a non-blank id and a backend-confirmed version: the sentinel `"0"`
from `get_resource` raises, as does a blank id.  A method that is
neither leaves `version` unbound in the source (NameError at the
substitution). -/
def methodDecision (fetchVersion : String → String → Option String)
    (resource_type name status method id : String) : Except String BuildParams :=
  if method = "create" then
    if pyStrip id ≠ "" then .ok ⟨name, status, pyStrip id, pyStrip id, "1"⟩
    else .ok ⟨name, status, uuid5 name, uuid5 name, "1"⟩
  else if method = "update" then
    if pyStrip id ≠ "" then
      if get_resource fetchVersion id resource_type ≠ "0" then
        .ok ⟨name, status, pyStrip id, pyStrip id,
             get_resource fetchVersion id resource_type⟩
      else .error "ValueError: Trying to update a Non-existent resource"
    else .error "ValueError: The id is required to update a resource"
  else .error "NameError: version is not defined"

def build_payload_row (fetchVersion : String → String → Option String)
    (resource_type : String) (resource : List String) :
    Except String BuildParams :=
  match resource with
  | [] => .error "IndexError: list index out of range"
  | r0 :: _ =>
    if 4 ≤ resource.length then
      methodDecision fetchVersion resource_type r0 (resource.getD 1 "")
        (resource.getD 2 "") (resource.getD 3 "")
    else
      methodDecision fetchVersion resource_type r0
        (if resource.length == 1 then "" else resource.getD 1 "") "create" (uuid5 r0)

/-! ## create_user_resources identities -/

/-- The three uuids `create_user_resources` derives for a user row. -/
structure UserResourceIds where
  practitioner_uuid : String
  group_uuid : String
  practitioner_role_uuid : String
deriving DecidableEq

/-- The identity-derivation prefix of `create_user_resources(user_id,
user)`: the row unpacks into exactly eleven fields (otherwise
ValueError); a blank id column derives the Practitioner uuid from
`username + keycloakGroupId + "practitioner_uuid"`, a non-blank id is
used verbatim; the group and practitioner-role uuids are always
derived the same way with their own suffixes. -/
def create_user_resources_identity (user : List String) :
    Except String UserResourceIds :=
  match user with
  | [_, _, username, _, id, _, _, keycloakGroupId, _, _, _] =>
    let practitioner_uuid :=
      if pyStrip id = "" then
        uuid5 (username ++ keycloakGroupId ++ "practitioner_uuid")
      else id
    .ok ⟨practitioner_uuid,
         uuid5 (username ++ keycloakGroupId ++ "group_uuid"),
         uuid5 (username ++ keycloakGroupId ++ "practitioner_role_uuid")⟩
  | _ => .error "ValueError: not enough values to unpack"

/-! ## build_assign_payload -/

/-- The fields of a PractitionerRole resource that
`build_assign_payload` reads or writes.  `versionId` is
`meta.versionId`; `none` models an absent `meta` key. -/
structure RoleResource where
  id : String
  versionId : Option String
  practitioner : Option Reference
  organization : Option Reference
deriving DecidableEq

/-- A search-set response: `total` plus the entry resources. -/
structure RoleSearch where
  total : Nat
  entry : List RoleResource
deriving DecidableEq

/-- One transaction-bundle entry produced by `build_assign_payload`:
`request.method` / `request.url` / `request.ifMatch` and the
resource. -/
structure AssignEntry where
  method : String
  url : String
  ifMatch : String
  resource : RoleResource
deriving DecidableEq

/-- Token substitution over a PractitionerRole resource. -/
def RoleResource.subst (tok v : String) (r : RoleResource) : RoleResource :=
  ⟨strReplace r.id tok v, r.versionId, r.practitioner.map (Reference.subst tok v),
   r.organization.map (Reference.subst tok v)⟩

/-- Modelled from the spec:
`json_payloads/practitioner_organization_payload.json` is not under
the sources.  Per the spec the template is a fresh PractitionerRole
body tokenized on `$id`, the practitioner reference and the
organization reference, with no `meta`. -/
def practitioner_organization_payload : RoleResource :=
  ⟨"$id", none,
   some ⟨"Practitioner/$practitioner_id", "$practitioner_name"⟩,
   some ⟨"Organization/$organization_id", "$organization_name"⟩⟩

/-- The per-row body of `build_assign_payload(rows, resource_type)`.
`fetchSearch` is the remote
`<resource_type>/_search?_count=1&practitioner=Practitioner/<id>`
query, keyed by practitioner id.  Exactly one match updates that
resource in place (resetting its organization, reusing its id,
carrying `meta.versionId` and dropping `meta`); zero matches builds a
fresh resource from the template under a derived uuid with version
`"1"`; anything else raises ValueError.  Every emitted entry is a
`PUT` with an `ifMatch` precondition.  (The three outcomes are split
into `assignFromMatch` / `assignFresh` under `assignDecision`; the
one-match arm sets the organization reference and display whether or
not the key already existed, which is what both the try arm and the
KeyError arm of the source amount to.) -/
def assignVersioned (resource_type : String) (resource : RoleResource) :
    Option String → Except String AssignEntry
  | some version =>
    .ok ⟨"PUT", resource_type ++ "/" ++ resource.id, version,
         { resource with versionId := none }⟩
  | none => .error "KeyError: meta"

def assignFromMatch (resource_type organization_name organization_id : String) :
    List RoleResource → Except String AssignEntry
  | resource :: _ =>
    assignVersioned resource_type
      { resource with
        organization := some ⟨"Organization/" ++ organization_id, organization_name⟩ }
      resource.versionId
  | [] => .error "IndexError: list index out of range"

def assignFresh (resource_type practitioner_name practitioner_id
    organization_name organization_id : String) : Except String AssignEntry :=
  .ok ⟨"PUT", resource_type ++ "/" ++ uuid5 (practitioner_id ++ organization_id), "1",
       ((((practitioner_organization_payload.subst "$id"
            (uuid5 (practitioner_id ++ organization_id))).subst
           "$practitioner_id" practitioner_id).subst
           "$practitioner_name" practitioner_name).subst
           "$organization_id" organization_id).subst
           "$organization_name" organization_name⟩

def assignDecision (resource_type practitioner_name practitioner_id
    organization_name organization_id : String) (json_response : RoleSearch) :
    Except String AssignEntry :=
  if json_response.total = 1 then
    assignFromMatch resource_type organization_name organization_id json_response.entry
  else if json_response.total = 0 then
    assignFresh resource_type practitioner_name practitioner_id
      organization_name organization_id
  else .error "ValueError: The number of practitioner references should only be 0 or 1"

def build_assign_payload_row (fetchSearch : String → RoleSearch)
    (resource_type : String) (row : List String) : Except String AssignEntry :=
  match row with
  | [practitioner_name, practitioner_id, organization_name, organization_id] =>
    assignDecision resource_type practitioner_name practitioner_id
      organization_name organization_id (fetchSearch practitioner_id)
  | _ => .error "ValueError: not enough values to unpack"

/-- `build_assign_payload` over all rows: one bundle entry per row, in
order, failing as soon as a row fails. -/
def build_assign_payload (fetchSearch : String → RoleSearch)
    (resource_type : String) (rows : List (List String)) :
    Except String (List AssignEntry) :=
  rows.mapM (build_assign_payload_row fetchSearch resource_type)

/-! ## clean_duplicates -/

/-- The per-user body of `clean_duplicates(users, cascade_delete)`,
returning the ids passed to `delete_resource`.  The remote state is
passed in: `entries` are the ids of the Practitioner resources the
identifier search returns and `total` its reported total.  The
username read `user[2]` needs at least three fields (IndexError);
`user[4]` falling off the row makes the provided uuid `None`, which
is falsy exactly like a blank cell, and then nothing at all happens.
With a provided uuid: one linked Practitioner is compared and logged,
more than one deletes every entry whose id differs from the provided
uuid, fewer than one only logs. -/
def duplicateDeletions (entries : List String) (total : Nat) :
    Option String → List String
  | some p =>
    if p ≠ "" then
      if total = 1 then []
      else if 1 < total then entries.filter fun x => x ≠ p
      else []
    else []
  | none => []

def clean_duplicates_row (user : List String) (entries : List String)
    (total : Nat) : Except String (List String) :=
  if user.length < 3 then .error "IndexError: list index out of range"
  else
    .ok (duplicateDeletions entries total
      (if 5 ≤ user.length then some (pyStrip (user.getD 4 "")) else none))

/-- The `setup == "clean_duplicates"` arm of `main`: the destructive
cleanup runs only behind `click.confirm(..., abort=True)`; a declined
confirmation aborts before any request.  Each list element carries
one user row with the remote search result for its account, and the
result collects every deleted id in order. -/
def run_clean_duplicates (confirmed : Bool)
    (users : List (List String × List String × Nat)) :
    Option (Except String (List String)) :=
  if confirmed then
    some (users.foldlM
      (fun acc u => (clean_duplicates_row u.1 u.2.1 u.2.2).map (fun l => acc ++ l)) [])
  else none

/-! ## Helper lemmas -/

deriving instance DecidableEq for Except

/-- `$`-freedom of a string, the side condition under which later
token substitutions cannot rewrite an already-substituted value. -/
def noDollarStr (s : String) : Prop := '$' ∉ s.data

/-- Inversion of a successful `Except` bind. -/
theorem exceptBind_ok {α β : Type} {e : Except String α} {f : α → Except String β}
    {b : β} (h : (e >>= f) = .ok b) : ∃ a, e = .ok a ∧ f a = .ok b := by
  cases e with
  | error s => simp [Bind.bind, Except.bind] at h
  | ok a => exact ⟨a, rfl, by simpa [Bind.bind, Except.bind] using h⟩

theorem leadsWith_self (l : List Char) : leadsWith l l = true := by
  induction l with
  | nil => rfl
  | cons c cs ih => simp [leadsWith, ih]

theorem replaceListF_nilList (p0 : Char) (ps rep : List Char) (fuel : Nat) :
    replaceListF p0 ps rep fuel [] = [] := by
  cases fuel <;> rfl

theorem hasSub_mem_head {p : Char} {ps l : List Char}
    (h : hasSub (p :: ps) l = true) : p ∈ l := by
  induction l with
  | nil => simp [hasSub, leadsWith] at h
  | cons c rest ih =>
    simp only [hasSub, Bool.or_eq_true] at h
    rcases h with h | h
    · simp only [leadsWith, Bool.and_eq_true, beq_iff_eq] at h
      exact h.1 ▸ List.mem_cons_self c rest
    · exact List.mem_cons_of_mem _ (ih h)

theorem replaceListF_no_occur {p0 : Char} {ps l : List Char} (rep : List Char)
    (h : hasSub (p0 :: ps) l = false) (fuel : Nat) :
    replaceListF p0 ps rep fuel l = l := by
  induction l generalizing fuel with
  | nil => cases fuel <;> rfl
  | cons c rest ih =>
    cases fuel with
    | zero => rfl
    | succ f =>
      simp only [hasSub, Bool.or_eq_false_iff] at h
      simp [replaceListF, h.1, ih h.2 f]

theorem strReplace_no_occur (s pat v : String) (h : containsSub pat s = false) :
    strReplace s pat v = s := by
  unfold containsSub at h
  unfold strReplace
  cases hp : pat.data with
  | nil => rfl
  | cons p0 ps =>
    rw [hp] at h
    show String.mk (replaceListF p0 ps v.data s.data.length s.data) = s
    rw [replaceListF_no_occur v.data h s.data.length]

theorem replaceListF_concat (p0 : Char) (ps rep : List Char) :
    ∀ a : List Char, p0 ∉ a → ∀ fuel, a.length < fuel →
      replaceListF p0 ps rep fuel (a ++ p0 :: ps) = a ++ rep := by
  intro a
  induction a with
  | nil =>
    intro _ fuel hf
    cases fuel with
    | zero => omega
    | succ f =>
      simp only [List.nil_append, replaceListF, leadsWith_self, if_true]
      rw [List.drop_length, replaceListF_nilList, List.append_nil]
  | cons c a' ih =>
    intro ha fuel hf
    cases fuel with
    | zero => omega
    | succ f =>
      have hc : (p0 == c) = false := by
        simp only [beq_eq_false_iff_ne]
        intro hcc
        exact ha (hcc ▸ List.mem_cons_self c a')
      have hlw : leadsWith (p0 :: ps) (c :: (a' ++ p0 :: ps)) = false := by
        simp [leadsWith, hc]
      have hstep : replaceListF p0 ps rep (f + 1) ((c :: a') ++ p0 :: ps) =
          c :: replaceListF p0 ps rep f (a' ++ p0 :: ps) := by
        simp [replaceListF, hlw]
      rw [hstep, ih (fun hm => ha (List.mem_cons_of_mem _ hm)) f
        (Nat.lt_of_succ_lt_succ (by simpa using hf))]
      rfl

theorem strReplace_concat {p0 : Char} {ps : List Char} (a : List Char) (pat v : String)
    (hp : pat.data = p0 :: ps) (ha : p0 ∉ a) :
    strReplace ⟨a ++ pat.data⟩ pat v = ⟨a ++ v.data⟩ := by
  unfold strReplace
  rw [hp]
  show String.mk (replaceListF p0 ps v.data (a ++ p0 :: ps).length (a ++ p0 :: ps)) =
    ⟨a ++ v.data⟩
  have hlen : a.length < (a ++ p0 :: ps).length := by simp
  rw [replaceListF_concat p0 ps v.data a ha _ hlen]

theorem strReplace_self_token {p0 : Char} {ps : List Char} (pat v : String)
    (hp : pat.data = p0 :: ps) : strReplace pat pat v = v := by
  have h := strReplace_concat [] pat v hp (by simp)
  simpa using h

theorem strReplace_no_dollar {ps : List Char} (s pat v : String)
    (hp : pat.data = '$' :: ps) (h : '$' ∉ s.data) : strReplace s pat v = s := by
  apply strReplace_no_occur
  unfold containsSub
  rw [hp]
  cases hh : hasSub ('$' :: ps) s.data with
  | false => rfl
  | true => exact absurd (hasSub_mem_head hh) h

theorem noDollar_append {a b : String} (ha : '$' ∉ a.data) (hb : '$' ∉ b.data) :
    '$' ∉ (a ++ b).data := by
  intro h
  rw [String.data_append] at h
  rcases List.mem_append.mp h with h | h
  · exact ha h
  · exact hb h

theorem dropWhile_all_false {p : Char → Bool} {l : List Char}
    (h : ∀ c ∈ l, p c = false) : l.dropWhile p = l := by
  cases l with
  | nil => rfl
  | cons c rest => simp [List.dropWhile_cons, h c (List.mem_cons_self c rest)]

theorem pyStrip_eq_self {s : String} (h : ∀ c ∈ s.data, isWsChar c = false) :
    pyStrip s = s := by
  unfold pyStrip
  rw [dropWhile_all_false h, dropWhile_all_false, List.reverse_reverse]
  intro c hc
  exact h c (by simpa using hc)

theorem mem_byteHexChars {c : Char} {b : Nat} (h : c ∈ byteHexChars b) :
    ∃ n, n < 16 ∧ c = hexChar n := by
  simp only [byteHexChars, List.mem_cons, List.not_mem_nil, or_false] at h
  rcases h with h | h
  · exact ⟨b / 16 % 16, Nat.mod_lt _ (by norm_num), h⟩
  · exact ⟨b % 16, Nat.mod_lt _ (by norm_num), h⟩

theorem mem_bytesHexChars {c : Char} {l : List Nat} (h : c ∈ bytesHexChars l) :
    ∃ n, n < 16 ∧ c = hexChar n := by
  induction l with
  | nil => simp [bytesHexChars] at h
  | cons b rest ih =>
    simp only [bytesHexChars, List.mem_append] at h
    rcases h with h | h
    · exact mem_byteHexChars h
    · exact ih h

theorem mem_uuidFormat {c : Char} {bs : List Nat} (h : c ∈ (uuidFormat bs).data) :
    c = '-' ∨ ∃ n, n < 16 ∧ c = hexChar n := by
  simp only [uuidFormat, List.mem_append, List.mem_cons] at h
  rcases h with h | h | h | h | h | h | h | h | h
  all_goals first
    | exact Or.inl h
    | exact Or.inr (mem_bytesHexChars h)

theorem uuid5_chars {c : Char} {s : String} (h : c ∈ (uuid5 s).data) :
    c = '-' ∨ ∃ n, n < 16 ∧ c = hexChar n := by
  unfold uuid5 at h
  exact mem_uuidFormat h

theorem hexChar_not_ws {n : Nat} (h : n < 16) : isWsChar (hexChar n) = false := by
  interval_cases n <;> decide

theorem hexChar_ne_dollar {n : Nat} (h : n < 16) : hexChar n ≠ '$' := by
  interval_cases n <;> decide

theorem pyStrip_uuid5 (s : String) : pyStrip (uuid5 s) = uuid5 s := by
  apply pyStrip_eq_self
  intro c hc
  rcases uuid5_chars hc with h | ⟨n, hn, rfl⟩
  · rw [h]; rfl
  · exact hexChar_not_ws hn

theorem noDollar_uuid5 (s : String) : '$' ∉ (uuid5 s).data := by
  intro h
  rcases uuid5_chars h with h | ⟨n, hn, h⟩
  · exact absurd h (by decide)
  · exact hexChar_ne_dollar hn h.symm

theorem uuid5_ne_empty (s : String) : uuid5 s ≠ "" := by
  intro h
  have hd : '-' ∈ (uuid5 s).data := by
    unfold uuid5 uuidFormat
    simp [List.mem_append]
  rw [h] at hd
  simp at hd

theorem pyStrip_uuid5_ne_empty (s : String) : pyStrip (uuid5 s) ≠ "" := by
  rw [pyStrip_uuid5]
  exact uuid5_ne_empty s

/-! ## Lemmas about identify_coding_object_index -/

/-- Spec-side matcher: does an entry's first coding system contain the
searched system string? -/
def entryMatches (current_system : String) (e : TypeEntry) : Bool :=
  match e.coding with
  | [] => false
  | c :: _ => containsSub current_system c.system

/-- Spec-side first-match index, written the way the spec describes
the function: the index of the first matching entry, `none` when no
entry matches. -/
def firstMatchIdx (current_system : String) : List TypeEntry → Option Nat
  | [] => none
  | e :: rest =>
    if entryMatches current_system e then some 0
    else (firstMatchIdx current_system rest).map (· + 1)

theorem identifyAux_spec (sys : String) (l : List TypeEntry)
    (h : ∀ e ∈ l, e.coding ≠ []) (i : Nat) :
    identifyAux sys l i = .ok ((firstMatchIdx sys l).map (· + i)) := by
  induction l generalizing i with
  | nil => simp [identifyAux, firstMatchIdx]
  | cons e rest ih =>
    obtain ⟨c, cs, hc⟩ : ∃ c cs, e.coding = c :: cs := by
      cases hcc : e.coding with
      | nil => exact absurd hcc (h e (List.mem_cons_self e rest))
      | cons c cs => exact ⟨c, cs, rfl⟩
    have hrest : ∀ x ∈ rest, x.coding ≠ [] := fun x hx => h x (List.mem_cons_of_mem _ hx)
    cases hm : containsSub sys c.system with
    | true => simp [identifyAux, hc, firstMatchIdx, entryMatches, hm]
    | false =>
      have hstep : identifyAux sys (e :: rest) i = identifyAux sys rest (i + 1) := by
        simp [identifyAux, hc, hm]
      have hfm : firstMatchIdx sys (e :: rest) = (firstMatchIdx sys rest).map (· + 1) := by
        simp [firstMatchIdx, entryMatches, hc, hm]
      rw [hstep, ih hrest (i + 1), hfm]
      cases firstMatchIdx sys rest with
      | none => rfl
      | some k =>
        show (Except.ok (some (k + (i + 1))) : Except String (Option Nat)) =
          .ok (some (k + 1 + i))
        have harith : k + (i + 1) = k + 1 + i := by omega
        rw [harith]

theorem firstMatchIdx_lt {sys : String} {l : List TypeEntry} {i : Nat}
    (h : firstMatchIdx sys l = some i) : i < l.length := by
  induction l generalizing i with
  | nil => simp [firstMatchIdx] at h
  | cons e rest ih =>
    unfold firstMatchIdx at h
    by_cases hm : entryMatches sys e = true
    · rw [if_pos hm] at h
      cases h
      simp only [List.length_cons]
      omega
    · rw [if_neg hm] at h
      cases hr : firstMatchIdx sys rest with
      | none => rw [hr] at h; simp at h
      | some k =>
        rw [hr] at h
        have hk : i = k + 1 := by
          have : some (k + 1) = some i := h
          cases this
          rfl
        have := ih hr
        simp only [List.length_cons]
        omega

theorem firstMatchIdx_isSome_of_exists {sys : String} {l : List TypeEntry}
    (h : ∃ e ∈ l, entryMatches sys e = true) : ∃ i, firstMatchIdx sys l = some i := by
  induction l with
  | nil => simp at h
  | cons e rest ih =>
    by_cases hm : entryMatches sys e = true
    · exact ⟨0, by simp [firstMatchIdx, hm]⟩
    · obtain ⟨x, hx, hxm⟩ := h
      rcases List.mem_cons.mp hx with rfl | hx
      · exact absurd hxm hm
      · obtain ⟨i, hi⟩ := ih ⟨x, hx, hxm⟩
        exact ⟨i + 1, by simp [firstMatchIdx, hm, hi]⟩

theorem firstMatchIdx_none_iff {sys : String} {l : List TypeEntry} :
    firstMatchIdx sys l = none ↔ ∀ e ∈ l, entryMatches sys e = false := by
  induction l with
  | nil => simp [firstMatchIdx]
  | cons e rest ih =>
    by_cases hm : entryMatches sys e = true
    · simp [firstMatchIdx, hm]
    · have hm' : entryMatches sys e = false := by simpa using hm
      simp [firstMatchIdx, hm', Option.map_eq_none', ih]

theorem identify_spec (arr : List TypeEntry) (sys : String)
    (h : ∀ e ∈ arr, e.coding ≠ []) :
    identify_coding_object_index arr sys = .ok (firstMatchIdx sys arr) := by
  unfold identify_coding_object_index
  rw [identifyAux_spec sys arr h 0]
  cases firstMatchIdx sys arr with
  | none => rfl
  | some k => simp

/-! ## partOf preservation through the later location branches -/

theorem strext {a b : String} (h : a.data = b.data) : a = b := by
  cases a
  cases b
  cases h
  rfl

theorem strReplace_tail_token {p0 : Char} {ps : List Char} (pre pat v : String)
    (hp : pat.data = p0 :: ps) (hpre : p0 ∉ pre.data) :
    strReplace (pre ++ pat) pat v = pre ++ v := by
  have h1 : (pre ++ pat) = (⟨pre.data ++ pat.data⟩ : String) :=
    strext (String.data_append pre pat)
  rw [h1, strReplace_concat pre.data pat v hp hpre]
  exact (strext (String.data_append pre v)).symm

/-- `$`-free partOf subtrees, an invariant the later token
substitutions cannot disturb. -/
def partOfSafe : Option Reference → Prop
  | none => True
  | some r => '$' ∉ r.reference.data ∧ '$' ∉ r.display.data

theorem subst_partOf {ps : List Char} (tok v : String) (hp : tok.data = '$' :: ps)
    (d : LocDoc) (h : partOfSafe d.partOf) : (LocDoc.subst tok v d).partOf = d.partOf := by
  cases hP : d.partOf with
  | none => simp [LocDoc.subst, hP]
  | some r =>
    rw [hP] at h
    obtain ⟨h1, h2⟩ := h
    simp [LocDoc.subst, hP, Reference.subst,
      strReplace_no_dollar r.reference tok v hp h1,
      strReplace_no_dollar r.display tok v hp h2]

theorem eraseTypeEntry_partOf {d : LocDoc} {msg : String}
    {r : Except String (Option Nat)} {d' : LocDoc}
    (h : eraseTypeEntry d msg r = .ok d') : d'.partOf = d.partOf := by
  cases r with
  | error e => simp [eraseTypeEntry] at h
  | ok o =>
    cases o with
    | none => simp [eraseTypeEntry] at h
    | some i =>
      simp only [eraseTypeEntry, Except.ok.injEq] at h
      rw [← h]

theorem deleteAdminEntry_partOf {d d' : LocDoc} (h : deleteAdminEntry d = .ok d') :
    d'.partOf = d.partOf := by
  unfold deleteAdminEntry at h
  exact eraseTypeEntry_partOf h

theorem typeCodeStep_partOf {ltc : String} {d d' : LocDoc}
    (h : typeCodeStep ltc d = .ok d') (hs : partOfSafe d.partOf) :
    d'.partOf = d.partOf := by
  unfold typeCodeStep at h
  split at h
  · simp only [Except.ok.injEq] at h
    rw [← h]
    exact subst_partOf "$t_code" ltc
      (by decide : ("$t_code" : String).data = '$' :: "t_code".data) d hs
  · exact eraseTypeEntry_partOf h

theorem typeBranch_partOf {lt ltc : String} {d d' : LocDoc}
    (h : typeBranch lt ltc d = .ok d') (hs : partOfSafe d.partOf) :
    d'.partOf = d.partOf := by
  unfold typeBranch at h
  split at h
  · rw [typeCodeStep_partOf h (by
      rw [subst_partOf "$t_display" lt
        (by decide : ("$t_display" : String).data = '$' :: "t_display".data) d hs]
      exact hs)]
    exact subst_partOf "$t_display" lt
      (by decide : ("$t_display" : String).data = '$' :: "t_display".data) d hs
  · exact typeCodeStep_partOf h hs

theorem adminInheritResult_partOf {r : Except String (Option String)}
    {d d' : LocDoc} (h : adminInheritResult d r = .ok d') (hs : partOfSafe d.partOf) :
    d'.partOf = d.partOf := by
  cases r with
  | error e => simp [adminInheritResult] at h
  | ok lvl =>
    simp only [adminInheritResult] at h
    by_cases ht : truthyOpt lvl = true
    · rw [if_pos ht] at h
      simp only [Except.ok.injEq] at h
      rw [← h]
      exact subst_partOf "$adminLevelCode" (lvl.getD "")
        (by decide : ("$adminLevelCode" : String).data = '$' :: "adminLevelCode".data) d hs
    · rw [if_neg ht] at h
      exact deleteAdminEntry_partOf h

theorem adminBranch_partOf {fetch : String → FetchedLocation} {resource : List String}
    {al pid : String} {d d' : LocDoc}
    (h : adminBranch fetch resource al pid d = .ok d') (hs : partOfSafe d.partOf) :
    d'.partOf = d.partOf := by
  unfold adminBranch at h
  split at h
  · simp only [Except.ok.injEq] at h
    rw [← h]
    exact subst_partOf "$adminLevelCode" al
      (by decide : ("$adminLevelCode" : String).data = '$' :: "adminLevelCode".data) d hs
  · split at h
    · unfold adminInherit at h
      exact adminInheritResult_partOf h hs
    · exact deleteAdminEntry_partOf h

theorem prunePhysical_partOf {d d' : LocDoc} {o : Option TypeEntry}
    (h : prunePhysical d o = .ok d') : d'.partOf = d.partOf := by
  cases o with
  | none => simp [prunePhysical] at h
  | some x =>
    simp only [prunePhysical, Except.ok.injEq] at h
    rw [← h]

theorem physicalCodeStep_partOf {ptc : String} {d d' : LocDoc}
    (h : physicalCodeStep ptc d = .ok d') (hs : partOfSafe d.partOf) :
    d'.partOf = d.partOf := by
  unfold physicalCodeStep at h
  split at h
  · simp only [Except.ok.injEq] at h
    rw [← h]
    exact subst_partOf "$pt_code" ptc
      (by decide : ("$pt_code" : String).data = '$' :: "pt_code".data) d hs
  · exact prunePhysical_partOf h

theorem physicalBranch_partOf {pt ptc : String} {d d' : LocDoc}
    (h : physicalBranch pt ptc d = .ok d') (hs : partOfSafe d.partOf) :
    d'.partOf = d.partOf := by
  unfold physicalBranch at h
  split at h
  · rw [physicalCodeStep_partOf h (by
      rw [subst_partOf "$pt_display" pt
        (by decide : ("$pt_display" : String).data = '$' :: "pt_display".data) d hs]
      exact hs)]
    exact subst_partOf "$pt_display" pt
      (by decide : ("$pt_display" : String).data = '$' :: "pt_display".data) d hs
  · exact physicalCodeStep_partOf h hs

theorem prunePosition_partOf {d d' : LocDoc} {o : Option GeoPoint}
    (h : prunePosition d o = .ok d') : d'.partOf = d.partOf := by
  cases o with
  | none => simp [prunePosition] at h
  | some x =>
    simp only [prunePosition, Except.ok.injEq] at h
    rw [← h]

theorem positionBranch_partOf {lon lat : String} {d d' : LocDoc}
    (h : positionBranch lon lat d = .ok d') (hs : partOfSafe d.partOf) :
    d'.partOf = d.partOf := by
  unfold positionBranch at h
  split at h
  · simp only [Except.ok.injEq] at h
    have hs1 := subst_partOf "$longitude" lon
      (by decide : ("$longitude" : String).data = '$' :: "longitude".data) d hs
    rw [← h, subst_partOf "$latitude" lat
      (by decide : ("$latitude" : String).data = '$' :: "latitude".data)
      (d.subst "$longitude" lon) (by rw [hs1]; exact hs)]
    exact hs1
  · exact prunePosition_partOf h

/-! ## Claim theorems -/

/-- Claim C7 counterexample: `organization_extras` does not substitute
the default `"true"` when the second field is present but empty — the
empty string is substituted literally.  The default appears only when
the row is shorter than two fields. -/
theorem organization_active_default_counterexample :
    organization_extras ["Acme", ""] "$active" = "" ∧
    organization_extras ["Acme"] "$active" = "true" ∧
    ("" : String) ≠ "true" := by
  refine ⟨by decide, by decide, by decide⟩

/-- Claim C7 (amended): `organization_extras` sets the `active` flag
from the row's second column and substitutes the default `"true"`
exactly when the row is shorter than two fields; a present-but-empty
second field is substituted literally (as the empty string), not
defaulted. -/
theorem organization_active_default_amended (resource : List String) (ps : String) :
    (resource.length < 2 → organization_extras resource ps = strReplace ps "$active" "true") ∧
    (2 ≤ resource.length →
      organization_extras resource ps = strReplace ps "$active" (resource.getD 1 "")) := by
  constructor
  · intro h
    unfold organization_extras
    rw [if_neg (by omega)]
  · intro h
    unfold organization_extras
    rw [if_pos h]

/-- Witness for `organization_active_default_amended` at concrete
rows. -/
theorem organization_active_default_amended_witness :
    organization_extras ["Acme"] "$active" = strReplace "$active" "$active" "true" ∧
    organization_extras ["Acme", "false"] "$active" = strReplace "$active" "$active" "false" :=
  ⟨(organization_active_default_amended ["Acme"] "$active").1 (by decide),
   (organization_active_default_amended ["Acme", "false"] "$active").2 (by decide)⟩

/-- Claim C5 counterexample: on a CareTeam row whose organizations
cell is `"10:Clinic A|11:Clinic B"` and whose participants cell is
the placeholder, `care_team_extras` (ftype `"orgs & users"`) emits
FOUR participant entries, not exactly two: the "users" pass reuses
the organization elements when the participants list is empty and
appends `Practitioner/10`, `Practitioner/11` entries to the two
organization participants.  The managing-organization list does have
exactly two entries. -/
theorem care_team_participants_counterexample :
    (care_team_extras ["ct1", "active", "create", "", "idf",
        "10:Clinic A|11:Clinic B", "participants"] care_team_payload_template
        "orgs & users").map
      (fun d => (d.participant.length, d.managingOrganization.length)) = .ok (4, 2) ∧
    (4 : Nat) ≠ 2 := by
  refine ⟨by decide, by decide⟩

/-- Claim C5 (amended): the row with organizations
`"10:Clinic A|11:Clinic B"` and placeholder participants produces two
managingOrganization entries `Organization/10` / `Organization/11`
with the matching displays, and a participant list of four entries:
the two organization participants followed by two
Practitioner-reference entries reusing the organization ids (because
the "users" pass falls back to the organization elements when the
participants cell is absent).  A row whose organizations and
participants cells are absent or placeholders leaves the document
unchanged — an empty participant set — with no error. -/
theorem care_team_participants_amended :
    (care_team_extras ["ct1", "active", "create", "", "idf",
        "10:Clinic A|11:Clinic B", "participants"] care_team_payload_template
        "orgs & users"
      = .ok ⟨[⟨some healthcare_org_role, ⟨"Organization/10", "Clinic A"⟩⟩,
              ⟨some healthcare_org_role, ⟨"Organization/11", "Clinic B"⟩⟩,
              ⟨none, ⟨"Practitioner/10", "Clinic A"⟩⟩,
              ⟨none, ⟨"Practitioner/11", "Clinic B"⟩⟩],
             [⟨"Organization/10", "Clinic A"⟩, ⟨"Organization/11", "Clinic B"⟩]⟩) ∧
    (∀ n s m i idn o p : String, (o = "" ∨ o = "organizations") →
      (p = "" ∨ p = "participants") →
      care_team_extras [n, s, m, i, idn, o, p] care_team_payload_template "orgs & users"
        = .ok care_team_payload_template) := by
  constructor
  · decide
  · intro n s m i idn o p ho hp
    have hlen : ([n, s, m, i, idn, o, p] : List String).length = 7 := by simp
    have ho' : ¬(o ≠ "" ∧ o ≠ "organizations") := by
      rcases ho with rfl | rfl <;> simp
    have hp' : ¬(p ≠ "" ∧ p ≠ "participants") := by
      rcases hp with rfl | rfl <;> simp
    unfold care_team_extras
    simp [hlen, List.getD, ho', hp', splitFirstTwo, List.mapM.loop]
    rfl

/-- Witness for `care_team_participants_amended` at a concrete
absent-lists row. -/
theorem care_team_participants_amended_witness :
    care_team_extras ["n", "s", "m", "i", "idn", "", "participants"]
        care_team_payload_template "orgs & users" = .ok care_team_payload_template :=
  care_team_participants_amended.2 "n" "s" "m" "i" "idn" "" "participants"
    (Or.inl rfl) (Or.inr rfl)

/-- Claim C4: for a Location row with an empty administrative level
and a parent reference, a fetched parent whose administrative-level
coding has numeric code `"2"` gives the child code `"3"`; a fetched
parent with no `type` key at all prunes the child's
administrative-level entry.  But a parent whose `type` array has no
administrative-level coding does NOT prune: the source compares the
`None` from `identify_coding_object_index` with `0` (`if index >= 0`)
and raises `TypeError`, so the claim's pruning sentence fails on that
input — the spec describes the intended graceful branch, the code's
guard can never take it. -/
theorem admin_level_inheritance_code_bug :
    (location_extras
        (fun _ => ⟨some [⟨[⟨"https://smartregister.org/CodeSystem/administrative-level",
          "2", "Level 2"⟩]⟩]⟩)
        ["Child", "Parent", "p1", "Hospital", "ht", "", "Building", "bu", "36.8", "-1.2"]
        location_payload_template
      = .ok ⟨some ⟨"Location/p1", "Parent"⟩,
             [⟨[⟨"http://terminology.hl7.org/CodeSystem/location-type", "ht", "Hospital"⟩]⟩,
              ⟨[⟨"https://smartregister.org/CodeSystem/administrative-level", "3", "3"⟩]⟩],
             some ⟨[⟨"http://terminology.hl7.org/CodeSystem/location-physical-type",
               "bu", "Building"⟩]⟩,
             some ⟨"36.8", "-1.2"⟩⟩) ∧
    (location_extras (fun _ => ⟨none⟩)
        ["Child", "Parent", "p1", "Hospital", "ht", "", "Building", "bu", "36.8", "-1.2"]
        location_payload_template
      = .ok ⟨some ⟨"Location/p1", "Parent"⟩,
             [⟨[⟨"http://terminology.hl7.org/CodeSystem/location-type", "ht", "Hospital"⟩]⟩],
             some ⟨[⟨"http://terminology.hl7.org/CodeSystem/location-physical-type",
               "bu", "Building"⟩]⟩,
             some ⟨"36.8", "-1.2"⟩⟩) ∧
    (location_extras (fun _ => ⟨some [⟨[⟨"http://other-system", "x", "y"⟩]⟩]⟩)
        ["Child", "Parent", "p1", "Hospital", "ht", "", "Building", "bu", "36.8", "-1.2"]
        location_payload_template
      = .error "TypeError: NoneType and int comparison") := by
  refine ⟨by decide, by decide, by decide⟩

/-- Claim C2: in `build_payload`, an `update` row with a blank id
fails with an error; an `update` row whose id the backend does not
report as existing (`get_resource` sentinel `"0"`) fails hard — and
no entry of any kind, in particular no create entry, is emitted for
such a row. -/
theorem build_payload_update_hard_failure
    (fetchVersion : String → String → Option String) (resource_type : String)
    (r : List String) (h4 : 4 ≤ r.length) (hm : r.getD 2 "" = "update") :
    (pyStrip (r.getD 3 "") = "" →
      build_payload_row fetchVersion resource_type r =
        .error "ValueError: The id is required to update a resource") ∧
    (pyStrip (r.getD 3 "") ≠ "" →
      get_resource fetchVersion (r.getD 3 "") resource_type = "0" →
      build_payload_row fetchVersion resource_type r =
        .error "ValueError: Trying to update a Non-existent resource") ∧
    (∀ p, build_payload_row fetchVersion resource_type r = .ok p →
      get_resource fetchVersion (r.getD 3 "") resource_type ≠ "0") := by
  obtain ⟨r0, rest, rfl⟩ : ∃ r0 rest, r = r0 :: rest := by
    cases r with
    | nil => simp at h4
    | cons a t => exact ⟨a, t, rfl⟩
  have hbp : build_payload_row fetchVersion resource_type (r0 :: rest) =
      methodDecision fetchVersion resource_type r0 ((r0 :: rest).getD 1 "")
        ((r0 :: rest).getD 2 "") ((r0 :: rest).getD 3 "") := by
    simp only [build_payload_row]
    rw [if_pos h4]
  rw [hbp, hm]
  unfold methodDecision
  rw [if_neg (by decide), if_pos rfl]
  refine ⟨?_, ?_, ?_⟩
  · intro hid
    rw [if_neg (fun hcon => hcon hid)]
  · intro hid h0
    rw [if_pos hid, if_neg (fun hcon => hcon h0)]
  · intro p hp h0
    by_cases hid : pyStrip ((r0 :: rest).getD 3 "") ≠ ""
    · rw [if_pos hid, if_neg (fun hcon => hcon h0)] at hp
      exact Except.noConfusion hp
    · rw [if_neg hid] at hp
      exact Except.noConfusion hp

/-- Witness for `build_payload_update_hard_failure`: a backend that
reports nothing as existing, one update row with an id and one with a
blank id. -/
theorem build_payload_update_hard_failure_witness :
    build_payload_row (fun _ _ => none) "locations" ["n", "active", "update", "id1"] =
      .error "ValueError: Trying to update a Non-existent resource" ∧
    build_payload_row (fun _ _ => none) "locations" ["n", "active", "update", " "] =
      .error "ValueError: The id is required to update a resource" :=
  ⟨(build_payload_update_hard_failure (fun _ _ => none) "locations"
      ["n", "active", "update", "id1"] (by decide) (by decide)).2.1 (by decide) (by decide),
   (build_payload_update_hard_failure (fun _ _ => none) "locations"
      ["n", "active", "update", " "] (by decide) (by decide)).1 (by decide)⟩

/-- Claim C3: identity resolution honors provided ids and is
deterministic.  For `build_payload` `create` rows a non-blank
(stripped) id is used as-is and a blank id derives `uuid5(name)`,
always succeeding with version `"1"`; the result does not depend on
the backend at all, so importing the same rows twice yields the same
identities; short rows (the ValueError branch) also succeed with the
derived `uuid5(name)`.  For practitioner resources the identity is
the provided id verbatim, or `uuid5(username + keycloakGroupId +
suffix)` with the role-specific suffixes. -/
theorem identity_resolution_deterministic :
    (∀ (f : String → String → Option String) (rt : String) (r : List String),
      4 ≤ r.length → r.getD 2 "" = "create" →
      (pyStrip (r.getD 3 "") ≠ "" →
        build_payload_row f rt r =
          .ok ⟨r.getD 0 "", r.getD 1 "", pyStrip (r.getD 3 ""),
               pyStrip (r.getD 3 ""), "1"⟩) ∧
      (pyStrip (r.getD 3 "") = "" →
        build_payload_row f rt r =
          .ok ⟨r.getD 0 "", r.getD 1 "", uuid5 (r.getD 0 ""),
               uuid5 (r.getD 0 ""), "1"⟩)) ∧
    (∀ (f g : String → String → Option String) (rt rt' : String) (r : List String),
      4 ≤ r.length → r.getD 2 "" = "create" →
      build_payload_row f rt r = build_payload_row g rt' r) ∧
    (∀ (f : String → String → Option String) (rt r0 : String) (rest : List String),
      (r0 :: rest).length < 4 →
      build_payload_row f rt (r0 :: rest) =
        .ok ⟨r0, if (r0 :: rest).length == 1 then "" else (r0 :: rest).getD 1 "",
             uuid5 r0, uuid5 r0, "1"⟩) ∧
    (∀ fn ln username email id ut eu gid gname app pw : String,
      (pyStrip id = "" →
        create_user_resources_identity [fn, ln, username, email, id, ut, eu, gid, gname, app, pw]
          = .ok ⟨uuid5 (username ++ gid ++ "practitioner_uuid"),
                 uuid5 (username ++ gid ++ "group_uuid"),
                 uuid5 (username ++ gid ++ "practitioner_role_uuid")⟩) ∧
      (pyStrip id ≠ "" →
        create_user_resources_identity [fn, ln, username, email, id, ut, eu, gid, gname, app, pw]
          = .ok ⟨id, uuid5 (username ++ gid ++ "group_uuid"),
                 uuid5 (username ++ gid ++ "practitioner_role_uuid")⟩)) := by
  have hcreate : ∀ (f : String → String → Option String) (rt : String) (r : List String),
      4 ≤ r.length → r.getD 2 "" = "create" →
      (pyStrip (r.getD 3 "") ≠ "" →
        build_payload_row f rt r =
          .ok ⟨r.getD 0 "", r.getD 1 "", pyStrip (r.getD 3 ""),
               pyStrip (r.getD 3 ""), "1"⟩) ∧
      (pyStrip (r.getD 3 "") = "" →
        build_payload_row f rt r =
          .ok ⟨r.getD 0 "", r.getD 1 "", uuid5 (r.getD 0 ""),
               uuid5 (r.getD 0 ""), "1"⟩) := by
    intro f rt r h4 hm
    obtain ⟨r0, rest, rfl⟩ : ∃ r0 rest, r = r0 :: rest := by
      cases r with
      | nil => simp at h4
      | cons a t => exact ⟨a, t, rfl⟩
    have hbp : build_payload_row f rt (r0 :: rest) =
        methodDecision f rt r0 ((r0 :: rest).getD 1 "")
          ((r0 :: rest).getD 2 "") ((r0 :: rest).getD 3 "") := by
      simp only [build_payload_row]
      rw [if_pos h4]
    rw [hbp, hm]
    unfold methodDecision
    rw [if_pos rfl]
    constructor
    · intro hid
      rw [if_pos hid]
      rfl
    · intro hid
      rw [if_neg (fun hcon => hcon hid)]
      rfl
  refine ⟨hcreate, ?_, ?_, ?_⟩
  · intro f g rt rt' r h4 hm
    by_cases hid : pyStrip (r.getD 3 "") ≠ ""
    · rw [(hcreate f rt r h4 hm).1 hid, (hcreate g rt' r h4 hm).1 hid]
    · have hid' : pyStrip (r.getD 3 "") = "" := by
        by_contra hcon
        exact hid hcon
      rw [(hcreate f rt r h4 hm).2 hid', (hcreate g rt' r h4 hm).2 hid']
  · intro f rt r0 rest hlt
    have hbp : build_payload_row f rt (r0 :: rest) =
        methodDecision f rt r0
          (if (r0 :: rest).length == 1 then "" else (r0 :: rest).getD 1 "")
          "create" (uuid5 r0) := by
      simp only [build_payload_row]
      rw [if_neg (by omega)]
    rw [hbp]
    unfold methodDecision
    rw [if_pos rfl, if_pos (pyStrip_uuid5_ne_empty r0), pyStrip_uuid5]
  · intro fn ln username email id ut eu gid gname app pw
    constructor
    · intro hid
      simp only [create_user_resources_identity]
      rw [if_pos hid]
    · intro hid
      simp only [create_user_resources_identity]
      rw [if_neg hid]

/-- Witness for `identity_resolution_deterministic` at concrete rows:
a blank-id create row under two different backends, a short row, and
a practitioner row with a blank id. -/
theorem identity_resolution_deterministic_witness :
    build_payload_row (fun _ _ => none) "organizations" ["n", "active", "create", ""] =
      .ok ⟨"n", "active", uuid5 "n", uuid5 "n", "1"⟩ ∧
    build_payload_row (fun _ _ => none) "organizations" ["n", "active", "create", ""] =
      build_payload_row (fun _ _ => some "9") "locations" ["n", "active", "create", ""] ∧
    build_payload_row (fun _ _ => none) "organizations" ["n"] =
      .ok ⟨"n", "", uuid5 "n", uuid5 "n", "1"⟩ ∧
    create_user_resources_identity
        ["f", "l", "user1", "e@x", "", "Reader", "true", "g1", "team", "app", "pw"] =
      .ok ⟨uuid5 ("user1" ++ "g1" ++ "practitioner_uuid"),
           uuid5 ("user1" ++ "g1" ++ "group_uuid"),
           uuid5 ("user1" ++ "g1" ++ "practitioner_role_uuid")⟩ := by
  refine ⟨?_, ?_, ?_, ?_⟩
  · exact (identity_resolution_deterministic.1 (fun _ _ => none) "organizations"
      ["n", "active", "create", ""] (by decide) (by decide)).2 (by decide)
  · exact identity_resolution_deterministic.2.1 (fun _ _ => none) (fun _ _ => some "9")
      "organizations" "locations" ["n", "active", "create", ""] (by decide) (by decide)
  · exact identity_resolution_deterministic.2.2.1 (fun _ _ => none) "organizations" "n" []
      (by decide)
  · exact (identity_resolution_deterministic.2.2.2 "f" "l" "user1" "e@x" "" "Reader"
      "true" "g1" "team" "app" "pw").1 (by decide)

/-- The five-token substitution chain of `build_assign_payload`'s
create branch, evaluated on the template: when the row values carry
no `$` character (the spec makes pre-escaping a caller obligation),
the fresh resource is exactly the template with the derived id and
the practitioner/organization references filled in. -/
theorem assign_template_subst (pn pid orgName oid : String)
    (hpn : '$' ∉ pn.data) (hpid : '$' ∉ pid.data) (hoid : '$' ∉ oid.data) :
    ((((practitioner_organization_payload.subst "$id" (uuid5 (pid ++ oid))).subst
       "$practitioner_id" pid).subst "$practitioner_name" pn).subst
       "$organization_id" oid).subst "$organization_name" orgName =
    ⟨uuid5 (pid ++ oid), none, some ⟨"Practitioner/" ++ pid, pn⟩,
     some ⟨"Organization/" ++ oid, orgName⟩⟩ := by
  have e1 : practitioner_organization_payload.subst "$id" (uuid5 (pid ++ oid)) =
      ⟨uuid5 (pid ++ oid), none,
       some ⟨"Practitioner/$practitioner_id", "$practitioner_name"⟩,
       some ⟨"Organization/$organization_id", "$organization_name"⟩⟩ := by
    simp only [practitioner_organization_payload, RoleResource.subst, Reference.subst,
      Option.map_some']
    rw [strReplace_self_token "$id" (uuid5 (pid ++ oid))
        (by decide : ("$id" : String).data = '$' :: "id".data),
      strReplace_no_occur "Practitioner/$practitioner_id" "$id" (uuid5 (pid ++ oid))
        (by decide),
      strReplace_no_occur "$practitioner_name" "$id" (uuid5 (pid ++ oid)) (by decide),
      strReplace_no_occur "Organization/$organization_id" "$id" (uuid5 (pid ++ oid))
        (by decide),
      strReplace_no_occur "$organization_name" "$id" (uuid5 (pid ++ oid)) (by decide)]
  have e2 : (RoleResource.subst "$practitioner_id" pid
      ⟨uuid5 (pid ++ oid), none,
       some ⟨"Practitioner/$practitioner_id", "$practitioner_name"⟩,
       some ⟨"Organization/$organization_id", "$organization_name"⟩⟩) =
      ⟨uuid5 (pid ++ oid), none,
       some ⟨"Practitioner/" ++ pid, "$practitioner_name"⟩,
       some ⟨"Organization/$organization_id", "$organization_name"⟩⟩ := by
    simp only [RoleResource.subst, Reference.subst, Option.map_some']
    rw [strReplace_no_dollar (uuid5 (pid ++ oid)) "$practitioner_id" pid
        (by decide : ("$practitioner_id" : String).data = '$' :: "practitioner_id".data)
        (noDollar_uuid5 (pid ++ oid)),
      (by decide : ("Practitioner/$practitioner_id" : String) =
        "Practitioner/" ++ "$practitioner_id"),
      strReplace_tail_token "Practitioner/" "$practitioner_id" pid
        (by decide : ("$practitioner_id" : String).data = '$' :: "practitioner_id".data)
        (by decide),
      strReplace_no_occur "$practitioner_name" "$practitioner_id" pid (by decide),
      strReplace_no_occur "Organization/$organization_id" "$practitioner_id" pid
        (by decide),
      strReplace_no_occur "$organization_name" "$practitioner_id" pid (by decide)]
  have e3 : (RoleResource.subst "$practitioner_name" pn
      ⟨uuid5 (pid ++ oid), none,
       some ⟨"Practitioner/" ++ pid, "$practitioner_name"⟩,
       some ⟨"Organization/$organization_id", "$organization_name"⟩⟩) =
      ⟨uuid5 (pid ++ oid), none, some ⟨"Practitioner/" ++ pid, pn⟩,
       some ⟨"Organization/$organization_id", "$organization_name"⟩⟩ := by
    simp only [RoleResource.subst, Reference.subst, Option.map_some']
    rw [strReplace_no_dollar (uuid5 (pid ++ oid)) "$practitioner_name" pn
        (by decide : ("$practitioner_name" : String).data = '$' :: "practitioner_name".data)
        (noDollar_uuid5 (pid ++ oid)),
      strReplace_no_dollar ("Practitioner/" ++ pid) "$practitioner_name" pn
        (by decide : ("$practitioner_name" : String).data = '$' :: "practitioner_name".data)
        (noDollar_append (by decide) hpid),
      strReplace_self_token "$practitioner_name" pn
        (by decide : ("$practitioner_name" : String).data = '$' :: "practitioner_name".data),
      strReplace_no_occur "Organization/$organization_id" "$practitioner_name" pn
        (by decide),
      strReplace_no_occur "$organization_name" "$practitioner_name" pn (by decide)]
  have e4 : (RoleResource.subst "$organization_id" oid
      ⟨uuid5 (pid ++ oid), none, some ⟨"Practitioner/" ++ pid, pn⟩,
       some ⟨"Organization/$organization_id", "$organization_name"⟩⟩) =
      ⟨uuid5 (pid ++ oid), none, some ⟨"Practitioner/" ++ pid, pn⟩,
       some ⟨"Organization/" ++ oid, "$organization_name"⟩⟩ := by
    simp only [RoleResource.subst, Reference.subst, Option.map_some']
    rw [strReplace_no_dollar (uuid5 (pid ++ oid)) "$organization_id" oid
        (by decide : ("$organization_id" : String).data = '$' :: "organization_id".data)
        (noDollar_uuid5 (pid ++ oid)),
      strReplace_no_dollar ("Practitioner/" ++ pid) "$organization_id" oid
        (by decide : ("$organization_id" : String).data = '$' :: "organization_id".data)
        (noDollar_append (by decide) hpid),
      strReplace_no_dollar pn "$organization_id" oid
        (by decide : ("$organization_id" : String).data = '$' :: "organization_id".data)
        hpn,
      (by decide : ("Organization/$organization_id" : String) =
        "Organization/" ++ "$organization_id"),
      strReplace_tail_token "Organization/" "$organization_id" oid
        (by decide : ("$organization_id" : String).data = '$' :: "organization_id".data)
        (by decide),
      strReplace_no_occur "$organization_name" "$organization_id" oid (by decide)]
  have e5 : (RoleResource.subst "$organization_name" orgName
      ⟨uuid5 (pid ++ oid), none, some ⟨"Practitioner/" ++ pid, pn⟩,
       some ⟨"Organization/" ++ oid, "$organization_name"⟩⟩) =
      ⟨uuid5 (pid ++ oid), none, some ⟨"Practitioner/" ++ pid, pn⟩,
       some ⟨"Organization/" ++ oid, orgName⟩⟩ := by
    simp only [RoleResource.subst, Reference.subst, Option.map_some']
    rw [strReplace_no_dollar (uuid5 (pid ++ oid)) "$organization_name" orgName
        (by decide : ("$organization_name" : String).data = '$' :: "organization_name".data)
        (noDollar_uuid5 (pid ++ oid)),
      strReplace_no_dollar ("Practitioner/" ++ pid) "$organization_name" orgName
        (by decide : ("$organization_name" : String).data = '$' :: "organization_name".data)
        (noDollar_append (by decide) hpid),
      strReplace_no_dollar pn "$organization_name" orgName
        (by decide : ("$organization_name" : String).data = '$' :: "organization_name".data)
        hpn,
      strReplace_no_dollar ("Organization/" ++ oid) "$organization_name" orgName
        (by decide : ("$organization_name" : String).data = '$' :: "organization_name".data)
        (noDollar_append (by decide) hoid),
      strReplace_self_token "$organization_name" orgName
        (by decide : ("$organization_name" : String).data = '$' :: "organization_name".data)]
  rw [e1, e2, e3, e4, e5]

/-- Claim C1: per row of `build_assign_payload`, a search total of 0
emits a create-as-replace bundle entry — method `PUT`, version
precondition `"1"`, and the freshly derived `uuid5(practitioner_id +
organization_id)` identity in both the URL and the resource; a total
of 1 reuses the matched resource's id and carries its
`meta.versionId` as the `ifMatch` precondition (dropping `meta` from
the body); a total of 2 or more raises instead of emitting an entry.
The `$`-freedom hypotheses reflect the spec's pre-escaping
obligation on substituted values. -/
theorem build_assign_payload_reconciliation
    (fetchSearch : String → RoleSearch) (rt pn pid orgName oid : String)
    (hpn : '$' ∉ pn.data) (hpid : '$' ∉ pid.data) (hoid : '$' ∉ oid.data) :
    ((fetchSearch pid).total = 0 →
      build_assign_payload_row fetchSearch rt [pn, pid, orgName, oid] =
        .ok ⟨"PUT", rt ++ "/" ++ uuid5 (pid ++ oid), "1",
             ⟨uuid5 (pid ++ oid), none, some ⟨"Practitioner/" ++ pid, pn⟩,
              some ⟨"Organization/" ++ oid, orgName⟩⟩⟩) ∧
    (∀ res rest v, (fetchSearch pid).total = 1 →
      (fetchSearch pid).entry = res :: rest → res.versionId = some v →
      build_assign_payload_row fetchSearch rt [pn, pid, orgName, oid] =
        .ok ⟨"PUT", rt ++ "/" ++ res.id, v,
             ⟨res.id, none, res.practitioner,
              some ⟨"Organization/" ++ oid, orgName⟩⟩⟩) ∧
    (2 ≤ (fetchSearch pid).total →
      build_assign_payload_row fetchSearch rt [pn, pid, orgName, oid] =
        .error "ValueError: The number of practitioner references should only be 0 or 1") := by
  refine ⟨?_, ?_, ?_⟩
  · intro h0
    simp only [build_assign_payload_row]
    unfold assignDecision
    rw [if_neg (by rw [h0]; decide), if_pos h0]
    unfold assignFresh
    rw [assign_template_subst pn pid orgName oid hpn hpid hoid]
  · intro res rest v h1 hent hv
    obtain ⟨rid, rvid, rpr, rorg⟩ := res
    simp only [RoleResource.versionId] at hv
    simp only [build_assign_payload_row]
    unfold assignDecision
    rw [if_pos h1, hent]
    simp only [assignFromMatch, hv, assignVersioned]
  · intro h2
    simp only [build_assign_payload_row]
    unfold assignDecision
    rw [if_neg (by omega), if_neg (by omega)]

/-- Witness for `build_assign_payload_reconciliation`: concrete rows
against a backend reporting zero matches, one match with version
`"7"`, and two matches. -/
theorem build_assign_payload_reconciliation_witness :
    (build_assign_payload_row (fun _ => ⟨0, []⟩) "PractitionerRole"
        ["pn", "p1", "OrgA", "o1"] =
      .ok ⟨"PUT", "PractitionerRole" ++ "/" ++ uuid5 ("p1" ++ "o1"), "1",
           ⟨uuid5 ("p1" ++ "o1"), none, some ⟨"Practitioner/" ++ "p1", "pn"⟩,
            some ⟨"Organization/" ++ "o1", "OrgA"⟩⟩⟩) ∧
    (build_assign_payload_row
        (fun _ => ⟨1, [⟨"r9", some "7", some ⟨"Practitioner/p1", "pn"⟩, none⟩]⟩)
        "PractitionerRole" ["pn", "p1", "OrgA", "o1"] =
      .ok ⟨"PUT", "PractitionerRole" ++ "/" ++ "r9", "7",
           ⟨"r9", none, some ⟨"Practitioner/p1", "pn"⟩,
            some ⟨"Organization/" ++ "o1", "OrgA"⟩⟩⟩) ∧
    (build_assign_payload_row (fun _ => ⟨2, []⟩) "PractitionerRole"
        ["pn", "p1", "OrgA", "o1"] =
      .error "ValueError: The number of practitioner references should only be 0 or 1") :=
  ⟨(build_assign_payload_reconciliation (fun _ => ⟨0, []⟩) "PractitionerRole"
      "pn" "p1" "OrgA" "o1" (by decide) (by decide) (by decide)).1 rfl,
   (build_assign_payload_reconciliation
      (fun _ => ⟨1, [⟨"r9", some "7", some ⟨"Practitioner/p1", "pn"⟩, none⟩]⟩)
      "PractitionerRole" "pn" "p1" "OrgA" "o1" (by decide) (by decide) (by decide)).2.1
      ⟨"r9", some "7", some ⟨"Practitioner/p1", "pn"⟩, none⟩ [] "7" rfl rfl rfl,
   (build_assign_payload_reconciliation (fun _ => ⟨2, []⟩) "PractitionerRole"
      "pn" "p1" "OrgA" "o1" (by decide) (by decide) (by decide)).2.2 (by decide)⟩

/-- Claim C9: `clean_duplicates` never deletes the canonical
Practitioner.  With a provided (non-blank, stripped) practitioner
uuid and more than one linked Practitioner, exactly the entries whose
id differs from the provided uuid are deleted and the provided one is
never among the deletions; with one or fewer linked Practitioners, or
with no provided uuid (blank cell or a row too short to carry one),
nothing is deleted; and with the operator confirmation declined, the
cleanup does not run at all. -/
theorem clean_duplicates_safety (user : List String) (entries : List String)
    (total : Nat) :
    (5 ≤ user.length → pyStrip (user.getD 4 "") ≠ "" → 2 ≤ total →
      clean_duplicates_row user entries total =
        .ok (entries.filter fun x => x ≠ pyStrip (user.getD 4 "")) ∧
      pyStrip (user.getD 4 "") ∉ entries.filter fun x => x ≠ pyStrip (user.getD 4 "")) ∧
    (5 ≤ user.length → pyStrip (user.getD 4 "") ≠ "" → total ≤ 1 →
      clean_duplicates_row user entries total = .ok []) ∧
    (3 ≤ user.length → (user.length < 5 ∨ pyStrip (user.getD 4 "") = "") →
      clean_duplicates_row user entries total = .ok []) ∧
    (∀ us : List (List String × List String × Nat),
      run_clean_duplicates false us = none) := by
  refine ⟨?_, ?_, ?_, ?_⟩
  · intro h5 hp h2
    constructor
    · unfold clean_duplicates_row
      rw [if_neg (by omega), if_pos h5]
      simp only [duplicateDeletions]
      rw [if_pos hp, if_neg (by omega), if_pos (by omega)]
    · intro hmem
      have hne := (List.mem_filter.mp hmem).2
      simp only [decide_eq_true_eq] at hne
      exact hne rfl
  · intro h5 hp h1
    unfold clean_duplicates_row
    rw [if_neg (by omega), if_pos h5]
    simp only [duplicateDeletions]
    rw [if_pos hp]
    by_cases ht : total = 1
    · rw [if_pos ht]
    · rw [if_neg ht, if_neg (by omega)]
  · intro h3 hcase
    unfold clean_duplicates_row
    rw [if_neg (by omega)]
    rcases hcase with h5 | hp
    · rw [if_neg (by omega)]
      rfl
    · by_cases h5 : 5 ≤ user.length
      · rw [if_pos h5]
        simp only [duplicateDeletions]
        rw [if_neg (fun hcon => hcon hp)]
      · rw [if_neg h5]
        rfl
  · intro us
    rfl

/-- Witness for `clean_duplicates_safety` at a concrete user row and
search result. -/
theorem clean_duplicates_safety_witness :
    (clean_duplicates_row ["f", "l", "user1", "e", " keep "] ["a", "keep", "b"] 3 =
        .ok (["a", "keep", "b"].filter fun x => x ≠ pyStrip " keep ") ∧
      pyStrip " keep " ∉ ["a", "keep", "b"].filter fun x => x ≠ pyStrip " keep ") ∧
    clean_duplicates_row ["f", "l", "user1", "e", "keep"] ["keep"] 1 = .ok [] ∧
    clean_duplicates_row ["f", "l", "user1", "e", ""] ["a", "b"] 2 = .ok [] ∧
    run_clean_duplicates false [(["f", "l", "u", "e", "k"], ["a"], 2)] = none :=
  ⟨(clean_duplicates_safety ["f", "l", "user1", "e", " keep "] ["a", "keep", "b"] 3).1
      (by decide) (by decide) (by decide),
   (clean_duplicates_safety ["f", "l", "user1", "e", "keep"] ["keep"] 1).2.1
      (by decide) (by decide) (by decide),
   (clean_duplicates_safety ["f", "l", "user1", "e", ""] ["a", "b"] 2).2.2.1
      (by decide) (Or.inr (by decide)),
   (clean_duplicates_safety [] [] 0).2.2.2 [(["f", "l", "u", "e", "k"], ["a"], 2)]⟩

/-- Claim C10: `identify_coding_object_index` computes the index of
the first entry whose first coding system contains the searched
system string — the implicit `None` exactly when no entry matches —
and under the precondition that a matching entry exists in the
array, the index is a valid position of the array, so the callers'
`index >= 0` comparison and `del type[index]` subscript are
well-defined and the `TypeError` branches are unreachable: the
parent-level lookup cannot end in the `None`-comparison `TypeError`,
and the administrative-level deletion succeeds. -/
theorem identify_coding_object_index_spec :
    (∀ (arr : List TypeEntry) (sys : String), (∀ e ∈ arr, e.coding ≠ []) →
      identify_coding_object_index arr sys = .ok (firstMatchIdx sys arr) ∧
      (firstMatchIdx sys arr = none ↔ ∀ e ∈ arr, entryMatches sys e = false)) ∧
    (∀ (arr : List TypeEntry) (sys : String), (∀ e ∈ arr, e.coding ≠ []) →
      (∃ e ∈ arr, entryMatches sys e = true) →
      ∃ i, identify_coding_object_index arr sys = .ok (some i) ∧ i < arr.length) ∧
    (∀ (fetch : String → FetchedLocation) (pid : String) (arr : List TypeEntry),
      (fetch pid).type = some arr → (∀ e ∈ arr, e.coding ≠ []) →
      (∃ e ∈ arr, entryMatches "administrative-level" e = true) →
      check_parent_admin_level fetch pid ≠
        .error "TypeError: NoneType and int comparison") ∧
    (∀ d : LocDoc, (∀ e ∈ d.type, e.coding ≠ []) →
      (∃ e ∈ d.type, entryMatches "administrative-level" e = true) →
      ∃ i, deleteAdminEntry d = .ok { d with type := d.type.eraseIdx i }) := by
  have hvalid : ∀ (arr : List TypeEntry) (sys : String), (∀ e ∈ arr, e.coding ≠ []) →
      (∃ e ∈ arr, entryMatches sys e = true) →
      ∃ i, identify_coding_object_index arr sys = .ok (some i) ∧ i < arr.length := by
    intro arr sys h1 h2
    obtain ⟨i, hi⟩ := firstMatchIdx_isSome_of_exists h2
    exact ⟨i, by rw [identify_spec arr sys h1, hi], firstMatchIdx_lt hi⟩
  refine ⟨?_, hvalid, ?_, ?_⟩
  · intro arr sys h1
    exact ⟨identify_spec arr sys h1, firstMatchIdx_none_iff⟩
  · intro fetch pid arr htype h1 h2
    unfold check_parent_admin_level
    rw [htype]
    simp only [parentLevelOf]
    obtain ⟨i, hi⟩ := firstMatchIdx_isSome_of_exists h2
    rw [identify_spec arr _ h1, hi]
    simp only [adminCodeOf, codeAtIndex]
    have hlt := firstMatchIdx_lt hi
    have hmem : arr.getD i ⟨[]⟩ ∈ arr := by
      rw [List.getD_eq_getElem arr ⟨[]⟩ hlt]
      exact List.getElem_mem hlt
    cases hcod : (arr.getD i ⟨[]⟩).coding with
    | nil => exact absurd hcod (h1 _ hmem)
    | cons c cs =>
      cases hpi : pyInt c.code with
      | none => simp [codeHead, incrementedCode, hpi]
      | some k => simp [codeHead, incrementedCode, hpi]
  · intro d h1 h2
    obtain ⟨i, hi⟩ := firstMatchIdx_isSome_of_exists h2
    refine ⟨i, ?_⟩
    unfold deleteAdminEntry
    rw [identify_spec _ _ h1, hi]
    rfl

/-- Witness for `identify_coding_object_index_spec` at a concrete
two-entry type array whose second entry is the administrative
level. -/
theorem identify_coding_object_index_spec_witness :
    identify_coding_object_index
        [⟨[⟨"http://terminology.hl7.org/CodeSystem/location-type", "si", "Site"⟩]⟩,
         ⟨[⟨"https://smartregister.org/CodeSystem/administrative-level", "2", "Level 2"⟩]⟩]
        "administrative-level"
      = .ok (firstMatchIdx "administrative-level"
          [⟨[⟨"http://terminology.hl7.org/CodeSystem/location-type", "si", "Site"⟩]⟩,
           ⟨[⟨"https://smartregister.org/CodeSystem/administrative-level", "2", "Level 2"⟩]⟩]) ∧
    check_parent_admin_level
        (fun _ => ⟨some [⟨[⟨"https://smartregister.org/CodeSystem/administrative-level",
          "2", "Level 2"⟩]⟩]⟩) "p1"
      ≠ .error "TypeError: NoneType and int comparison" :=
  ⟨((identify_coding_object_index_spec.1
      [⟨[⟨"http://terminology.hl7.org/CodeSystem/location-type", "si", "Site"⟩]⟩,
       ⟨[⟨"https://smartregister.org/CodeSystem/administrative-level", "2", "Level 2"⟩]⟩]
      "administrative-level" (by decide))).1,
   identify_coding_object_index_spec.2.2.1
      (fun _ => ⟨some [⟨[⟨"https://smartregister.org/CodeSystem/administrative-level",
        "2", "Level 2"⟩]⟩]⟩) "p1"
      [⟨[⟨"https://smartregister.org/CodeSystem/administrative-level", "2", "Level 2"⟩]⟩]
      rfl (by decide) (by decide)⟩

/-- The parent reference of the substituted template: the two
parent-token substitutions of `location_extras` fill the reference
from the parent id and the display from the parent name (for
`$`-free values, per the spec's pre-escaping obligation). -/
theorem template_partOf_subst (pn pid : String) (hpn : '$' ∉ pn.data) :
    ((location_payload_template.subst "$parentName" pn).subst "$parentID" pid).partOf =
      some ⟨"Location/" ++ pid, pn⟩ := by
  have e1 : (location_payload_template.subst "$parentName" pn).partOf =
      some ⟨"Location/$parentID", pn⟩ := by
    simp only [location_payload_template, LocDoc.subst, Reference.subst, Option.map_some']
    rw [strReplace_no_occur "Location/$parentID" "$parentName" pn (by decide),
      strReplace_self_token "$parentName" pn
        (by decide : ("$parentName" : String).data = '$' :: "parentName".data)]
  have e2 : ((location_payload_template.subst "$parentName" pn).subst "$parentID" pid).partOf
      = ((location_payload_template.subst "$parentName" pn).partOf).map
          (Reference.subst "$parentID" pid) := rfl
  rw [e2, e1]
  simp only [Option.map_some', Reference.subst]
  rw [(by decide : ("Location/$parentID" : String) = "Location/" ++ "$parentID"),
    strReplace_tail_token "Location/" "$parentID" pid
      (by decide : ("$parentID" : String).data = '$' :: "parentID".data) (by decide),
    strReplace_no_dollar pn "$parentID" pid
      (by decide : ("$parentID" : String).data = '$' :: "parentID".data) hpn]

/-- Through branches 2..5 of `location_extras`, a pruned (or
`$`-free) parent reference survives unchanged. -/
theorem location_chain_partOf {fetch : String → FetchedLocation} {r : List String}
    {lt ltc al pid2 pt ptc lon lat : String} {d1 d : LocDoc}
    (hs : partOfSafe d1.partOf)
    (hchain : (typeBranch lt ltc d1 >>=
      fun d2 => adminBranch fetch r al pid2 d2 >>=
      fun d3 => physicalBranch pt ptc d3 >>=
      fun d4 => positionBranch lon lat d4) = .ok d) :
    d.partOf = d1.partOf := by
  obtain ⟨d2, h2, hchain⟩ := exceptBind_ok hchain
  obtain ⟨d3, h3, hchain⟩ := exceptBind_ok hchain
  obtain ⟨d4, h4, hchain⟩ := exceptBind_ok hchain
  have hp2 := typeBranch_partOf h2 hs
  have hs2 : partOfSafe d2.partOf := by rw [hp2]; exact hs
  have hp3 := adminBranch_partOf h3 hs2
  have hs3 : partOfSafe d3.partOf := by rw [hp3]; exact hs2
  have hp4 := physicalBranch_partOf h4 hs3
  have hs4 : partOfSafe d4.partOf := by rw [hp4]; exact hs3
  have hp5 := positionBranch_partOf hchain hs4
  rw [hp5, hp4, hp3, hp2]

/-- Claim C6: `location_extras` prunes the `partOf` subtree for every
row whose parent-name field is empty or the placeholder (including
the short-row ValueError branch, where the placeholder is
substituted), and for every row with a real parent name the result
carries `partOf` with display equal to the parent name and reference
`Location/<parent id>` (for `$`-free parent fields, per the spec's
pre-escaping obligation). -/
theorem location_partof_pruning (fetch : String → FetchedLocation)
    (r : List String) (d : LocDoc) :
    (r.length < 10 → location_extras fetch r location_payload_template = .ok d →
      d.partOf = none) ∧
    (10 ≤ r.length →
      (r.getD (r.length - 9) "" = "" ∨ r.getD (r.length - 9) "" = "parentName") →
      location_extras fetch r location_payload_template = .ok d →
      d.partOf = none) ∧
    (10 ≤ r.length → r.getD (r.length - 9) "" ≠ "" →
      r.getD (r.length - 9) "" ≠ "parentName" →
      '$' ∉ (r.getD (r.length - 9) "").data → '$' ∉ (r.getD (r.length - 8) "").data →
      location_extras fetch r location_payload_template = .ok d →
      d.partOf = some ⟨"Location/" ++ r.getD (r.length - 8) "",
        r.getD (r.length - 9) ""⟩) := by
  refine ⟨?_, ?_, ?_⟩
  · intro hlen hok
    unfold location_extras at hok
    obtain ⟨d1, h1, hchain⟩ := exceptBind_ok hok
    have hf1 : (locationFields r).1 = "parentName" := by
      unfold locationFields
      rw [if_neg (by omega)]
    rw [hf1] at h1
    unfold partOfBranch at h1
    rw [if_neg (by simp)] at h1
    have hd1 : d1.partOf = none := by
      simp only [location_payload_template, prunePartOf, Except.ok.injEq] at h1
      rw [← h1]
    have hs : partOfSafe d1.partOf := by
      rw [hd1]
      simp only [partOfSafe]
    rw [location_chain_partOf hs hchain, hd1]
  · intro hlen hcase hok
    unfold location_extras at hok
    obtain ⟨d1, h1, hchain⟩ := exceptBind_ok hok
    have hf1 : (locationFields r).1 = r.getD (r.length - 9) "" := by
      unfold locationFields
      rw [if_pos hlen]
    rw [hf1] at h1
    unfold partOfBranch at h1
    have hcond : ¬(r.getD (r.length - 9) "" ≠ "" ∧
        r.getD (r.length - 9) "" ≠ "parentName") := by
      rcases hcase with h | h
      · intro hcon
        exact hcon.1 h
      · intro hcon
        exact hcon.2 h
    rw [if_neg hcond] at h1
    have hd1 : d1.partOf = none := by
      simp only [location_payload_template, prunePartOf, Except.ok.injEq] at h1
      rw [← h1]
    have hs : partOfSafe d1.partOf := by
      rw [hd1]
      simp only [partOfSafe]
    rw [location_chain_partOf hs hchain, hd1]
  · intro hlen hne hnp hpn hpid hok
    unfold location_extras at hok
    obtain ⟨d1, h1, hchain⟩ := exceptBind_ok hok
    have hf1 : (locationFields r).1 = r.getD (r.length - 9) "" := by
      unfold locationFields
      rw [if_pos hlen]
    have hf2 : (locationFields r).2.1 = r.getD (r.length - 8) "" := by
      unfold locationFields
      rw [if_pos hlen]
    rw [hf1, hf2] at h1
    unfold partOfBranch at h1
    rw [if_pos ⟨hne, hnp⟩] at h1
    simp only [Except.ok.injEq] at h1
    have hd1 : d1.partOf = some ⟨"Location/" ++ r.getD (r.length - 8) "",
        r.getD (r.length - 9) ""⟩ := by
      rw [← h1]
      exact template_partOf_subst (r.getD (r.length - 9) "") (r.getD (r.length - 8) "") hpn
    have hs : partOfSafe d1.partOf := by
      rw [hd1]
      simp only [partOfSafe]
      exact ⟨noDollar_append (by decide) hpid, hpn⟩
    rw [location_chain_partOf hs hchain, hd1]

/-- Witness for `location_partof_pruning`: a short row, a
placeholder-parent full row, and a real-parent full row. -/
theorem location_partof_pruning_witness :
    (∃ d, location_extras (fun _ => ⟨none⟩) ["OnlyName"] location_payload_template
        = .ok d ∧ d.partOf = none) ∧
    (∃ d, location_extras (fun _ => ⟨none⟩)
        ["Child", "Parent", "p1", "Hospital", "ht", "", "Building", "bu", "36.8", "-1.2"]
        location_payload_template = .ok d ∧
      d.partOf = some ⟨"Location/" ++ "p1", "Parent"⟩) := by
  constructor
  · refine ⟨⟨none, [], none, none⟩, by decide, ?_⟩
    exact (location_partof_pruning (fun _ => ⟨none⟩) ["OnlyName"]
      ⟨none, [], none, none⟩).1 (by decide) (by decide)
  · refine ⟨⟨some ⟨"Location/p1", "Parent"⟩,
      [⟨[⟨"http://terminology.hl7.org/CodeSystem/location-type", "ht", "Hospital"⟩]⟩],
      some ⟨[⟨"http://terminology.hl7.org/CodeSystem/location-physical-type",
        "bu", "Building"⟩]⟩, some ⟨"36.8", "-1.2"⟩⟩, by decide, ?_⟩
    exact (location_partof_pruning (fun _ => ⟨none⟩)
      ["Child", "Parent", "p1", "Hospital", "ht", "", "Building", "bu", "36.8", "-1.2"]
      ⟨some ⟨"Location/p1", "Parent"⟩,
       [⟨[⟨"http://terminology.hl7.org/CodeSystem/location-type", "ht", "Hospital"⟩]⟩],
       some ⟨[⟨"http://terminology.hl7.org/CodeSystem/location-physical-type",
         "bu", "Building"⟩]⟩, some ⟨"36.8", "-1.2"⟩⟩).2.2 (by decide) (by decide)
      (by decide) (by decide) (by decide) (by decide)

/-- Successful bind reduction in `Except`, used to evaluate the
branch chains. -/
theorem exceptOk_bind {α β : Type} (a : α) (f : α → Except String β) :
    (Except.ok a >>= f : Except String β) = f a := rfl

/-- Claim C8: the resource shapers are total on ragged input.  Rows
shorter than the positional schema take the ValueError branches and
every placeholder-valued optional field is treated as absent: the
organization shaper defaults `active` to `"true"`, the CareTeam
shaper leaves the participant set empty, and the Location shaper
prunes its optional subtrees and returns a document — under the sole
hypothesis that the remote parent-level lookups themselves return
(the lookup can only fail on remote data that violates the
administrative-level precondition, see the C10 theorem, which is not
an input-raggedness failure). -/
theorem shapers_total_on_ragged_input (fetch : String → FetchedLocation)
    (hfetch : ∀ pid, ∃ res, check_parent_admin_level fetch pid = .ok res) :
    (∀ (r : List String) (ps : String), r.length < 2 →
      organization_extras r ps = strReplace ps "$active" "true") ∧
    (∀ r : List String, r.length < 2 →
      care_team_extras r care_team_payload_template "orgs & users" =
        .ok care_team_payload_template) ∧
    (∀ r : List String, r.length < 10 →
      ∃ d, location_extras fetch r location_payload_template = .ok d) ∧
    (∀ name : String,
      ∃ d, location_extras fetch
          [name, "parentName", "ParentId", "type", "typeCode", "adminLevel",
           "physicalType", "physicalTypeCode", "longitude", "latitude"]
          location_payload_template = .ok d ∧
        d.partOf = none ∧ d.physicalType = none ∧ d.position = none) ∧
    (∀ n s m i idn : String,
      care_team_extras [n, s, m, i, idn, "organizations", "participants"]
        care_team_payload_template "orgs & users" = .ok care_team_payload_template) := by
  refine ⟨?_, ?_, ?_, ?_, ?_⟩
  · intro r ps hr
    unfold organization_extras
    rw [if_neg (by omega)]
  · intro r hr
    have h2 : ¬ 2 ≤ r.length := by omega
    unfold care_team_extras
    simp [h2, List.mapM.loop]
    rfl
  · intro r hr
    have hf : locationFields r = ("parentName", "ParentId", "type", "typeCode",
        "adminLevel", "physicalType", "physicalTypeCode", "longitude", "") := by
      unfold locationFields
      rw [if_neg (by omega)]
    unfold location_extras
    simp only [hf]
    by_cases hc : r.contains "adminLevel"
    · obtain ⟨res, hres⟩ := hfetch "ParentId"
      cases res with
      | none =>
        simp [exceptOk_bind, partOfBranch, prunePartOf, typeBranch, typeCodeStep, adminBranch,
          adminInherit, adminInheritResult, hres, hc, truthyOpt, deleteAdminEntry,
          eraseTypeEntry, identify_coding_object_index, identifyAux, containsSub,
          hasSub, leadsWith, physicalBranch, physicalCodeStep, prunePhysical,
          positionBranch, prunePosition, location_payload_template, pyStrip]
      | some lvl =>
        by_cases hl : lvl = ""
        · simp [exceptOk_bind, partOfBranch, prunePartOf, typeBranch, typeCodeStep, adminBranch,
            adminInherit, adminInheritResult, hres, hc, hl, truthyOpt, deleteAdminEntry,
            eraseTypeEntry, identify_coding_object_index, identifyAux, containsSub,
            hasSub, leadsWith, physicalBranch, physicalCodeStep, prunePhysical,
            positionBranch, prunePosition, location_payload_template, pyStrip]
        · have hc' : "adminLevel" ∈ r := by simpa using hc
          simp [exceptOk_bind, partOfBranch, prunePartOf, typeBranch, typeCodeStep, adminBranch,
            adminInherit, adminInheritResult, hres, hc', hl, truthyOpt, deleteAdminEntry,
            eraseTypeEntry, identify_coding_object_index, identifyAux, containsSub,
            hasSub, leadsWith, physicalBranch, physicalCodeStep, prunePhysical,
            positionBranch, prunePosition, location_payload_template, LocDoc.subst,
            TypeEntry.subst, Coding.subst, GeoPoint.subst, pyStrip]
    · have hc' : "adminLevel" ∉ r := by simpa using hc
      simp [exceptOk_bind, partOfBranch, prunePartOf, typeBranch, typeCodeStep, adminBranch,
        hc', deleteAdminEntry, eraseTypeEntry, identify_coding_object_index,
        identifyAux, containsSub, hasSub, leadsWith, physicalBranch,
        physicalCodeStep, prunePhysical, positionBranch, prunePosition,
        location_payload_template, pyStrip]
  · intro name
    have hf : locationFields [name, "parentName", "ParentId", "type", "typeCode",
        "adminLevel", "physicalType", "physicalTypeCode", "longitude", "latitude"] =
        ("parentName", "ParentId", "type", "typeCode", "adminLevel", "physicalType",
         "physicalTypeCode", "longitude", "latitude") := by
      simp [locationFields, List.getD]
    unfold location_extras
    simp only [hf]
    have hc' : "adminLevel" ∈ [name, "parentName", "ParentId", "type", "typeCode",
        "adminLevel", "physicalType", "physicalTypeCode", "longitude", "latitude"] := by
      simp
    obtain ⟨res, hres⟩ := hfetch "ParentId"
    cases res with
    | none =>
      simp [exceptOk_bind, partOfBranch, prunePartOf, typeBranch, typeCodeStep,
        adminBranch, adminInherit, adminInheritResult, hres, hc', truthyOpt,
        deleteAdminEntry, eraseTypeEntry, identify_coding_object_index, identifyAux,
        containsSub, hasSub, leadsWith, physicalBranch, physicalCodeStep,
        prunePhysical, positionBranch, prunePosition, location_payload_template,
        pyStrip]
    | some lvl =>
      by_cases hl : lvl = ""
      · simp [exceptOk_bind, partOfBranch, prunePartOf, typeBranch, typeCodeStep,
          adminBranch, adminInherit, adminInheritResult, hres, hc', hl, truthyOpt,
          deleteAdminEntry, eraseTypeEntry, identify_coding_object_index, identifyAux,
          containsSub, hasSub, leadsWith, physicalBranch, physicalCodeStep,
          prunePhysical, positionBranch, prunePosition, location_payload_template,
          pyStrip]
      · simp [exceptOk_bind, partOfBranch, prunePartOf, typeBranch, typeCodeStep,
          adminBranch, adminInherit, adminInheritResult, hres, hc', hl, truthyOpt,
          deleteAdminEntry, eraseTypeEntry, identify_coding_object_index, identifyAux,
          containsSub, hasSub, leadsWith, physicalBranch, physicalCodeStep,
          prunePhysical, positionBranch, prunePosition, location_payload_template,
          LocDoc.subst, TypeEntry.subst, Coding.subst, GeoPoint.subst, pyStrip]
  · intro n s m i idn
    have hlen : ([n, s, m, i, idn, "organizations", "participants"] :
        List String).length = 7 := by simp
    unfold care_team_extras
    simp [hlen, List.getD, List.mapM.loop]
    rfl

/-- Witness for `shapers_total_on_ragged_input`: one-field rows for
all three shapers under a backend whose fetched documents carry no
`type` key. -/
theorem shapers_total_on_ragged_input_witness :
    organization_extras ["solo"] "$active" = strReplace "$active" "$active" "true" ∧
    care_team_extras ["solo"] care_team_payload_template "orgs & users" =
      .ok care_team_payload_template ∧
    (∃ d, location_extras (fun _ => ⟨none⟩) ["solo"] location_payload_template = .ok d) :=
  have hf : ∀ pid, ∃ res,
      check_parent_admin_level (fun _ => (⟨none⟩ : FetchedLocation)) pid = .ok res :=
    fun _ => ⟨none, rfl⟩
  ⟨(shapers_total_on_ragged_input (fun _ => ⟨none⟩) hf).1 ["solo"] "$active" (by decide),
   (shapers_total_on_ragged_input (fun _ => ⟨none⟩) hf).2.1 ["solo"] (by decide),
   (shapers_total_on_ragged_input (fun _ => ⟨none⟩) hf).2.2.1 ["solo"] (by decide)⟩
